import Mathlib

/-!
# Verification of the iflow2api trust-and-traffic core

Shallow embedding of the credential & token manager (`admin/auth.py`),
the sliding-window rate limiter (`ratelimit.py`) and the OAuth token
refresher (`token_refresher.py`).  Python strings are modelled as
`List Char`, bytes as `List Nat` (each element `< 256`), machine/float
timestamps as `Int`, and 32-bit words as `Nat` reduced `% 2^32`.
Effectful inputs (clock readings, random bytes, I/O success) are passed
as explicit parameters; a raised-and-propagated exception is an
`Except.error`.
-/

/-- Python `str` modelled as a list of characters. -/
abbrev Str := List Char

/-- UTF-8 encoding of a single character (Python `str.encode()`), as bytes. -/
def utf8Bytes (c : Char) : List Nat :=
  let n := c.toNat
  if n < 128 then [n]
  else if n < 2048 then [192 ||| (n >>> 6), 128 ||| (n &&& 63)]
  else if n < 65536 then
    [224 ||| (n >>> 12), 128 ||| ((n >>> 6) &&& 63), 128 ||| (n &&& 63)]
  else
    [240 ||| (n >>> 18), 128 ||| ((n >>> 12) &&& 63),
     128 ||| ((n >>> 6) &&& 63), 128 ||| (n &&& 63)]

/-- UTF-8 encoding of a string (Python `s.encode()`). -/
def strBytes (s : Str) : List Nat := (s.map utf8Bytes).flatten

/-! ## SHA-256 (`hashlib.sha256`), on byte lists -/

/-- `2^32`, the modulus for 32-bit words. -/
def M32 : Nat := 4294967296

/-- Right rotation of a 32-bit word. -/
def rotr32 (n x : Nat) : Nat := ((x >>> n) ||| (x <<< (32 - n))) % M32

/-- SHA-256 `Ch` function (`¬x` as xor with the 32-bit mask). -/
def shaCh (x y z : Nat) : Nat := (x &&& y) ^^^ ((x ^^^ 4294967295) &&& z)

/-- SHA-256 `Maj` function. -/
def shaMaj (x y z : Nat) : Nat := (x &&& y) ^^^ (x &&& z) ^^^ (y &&& z)

/-- SHA-256 `Σ0`. -/
def bigSigma0 (x : Nat) : Nat := rotr32 2 x ^^^ rotr32 13 x ^^^ rotr32 22 x

/-- SHA-256 `Σ1`. -/
def bigSigma1 (x : Nat) : Nat := rotr32 6 x ^^^ rotr32 11 x ^^^ rotr32 25 x

/-- SHA-256 `σ0`. -/
def smallSigma0 (x : Nat) : Nat := rotr32 7 x ^^^ rotr32 18 x ^^^ (x >>> 3)

/-- SHA-256 `σ1`. -/
def smallSigma1 (x : Nat) : Nat := rotr32 17 x ^^^ rotr32 19 x ^^^ (x >>> 10)

/-- SHA-256 round constants. -/
def sha256K : List Nat :=
  [1116352408, 1899447441, 3049323471, 3921009573,
   961987163, 1508970993, 2453635748, 2870763221,
   3624381080, 310598401, 607225278, 1426881987,
   1925078388, 2162078206, 2614888103, 3248222580,
   3835390401, 4022224774, 264347078, 604807628,
   770255983, 1249150122, 1555081692, 1996064986,
   2554220882, 2821834349, 2952996808, 3210313671,
   3336571891, 3584528711, 113926993, 338241895,
   666307205, 773529912, 1294757372, 1396182291,
   1695183700, 1986661051, 2177026350, 2456956037,
   2730485921, 2820302411, 3259730800, 3345764771,
   3516065817, 3600352804, 4094571909, 275423344,
   430227734, 506948616, 659060556, 883997877,
   958139571, 1322822218, 1537002063, 1747873779,
   1955562222, 2024104815, 2227730452, 2361852424,
   2428436474, 2756734187, 3204031479, 3329325298]

/-- SHA-256 initial hash state. -/
def sha256H0 : List Nat :=
  [1779033703, 3144134277, 1013904242, 2773480762,
   1359893119, 2600822924, 528734635, 1541459225]

/-- `k` bytes of `n`, big-endian. -/
def beBytes : Nat → Nat → List Nat
  | 0, _ => []
  | k + 1, n => beBytes k (n >>> 8) ++ [n % 256]

/-- SHA-256 padding: append `0x80`, zeros to 56 mod 64, and the 64-bit
bit length, big-endian. -/
def sha256Pad (msg : List Nat) : List Nat :=
  let l := msg.length
  msg ++ 128 :: List.replicate ((120 - ((l + 1) % 64)) % 64) 0 ++ beBytes 8 (8 * l)

/-- Big-endian 32-bit words from bytes (length a multiple of 4). -/
def bytesToWords : List Nat → List Nat
  | a :: b :: c :: d :: rest =>
      (((a * 256 + b) * 256 + c) * 256 + d) :: bytesToWords rest
  | _ => []

/-- Extend the message schedule; `acc` holds the words most recent first. -/
def sha256ExtendRev : Nat → List Nat → List Nat
  | 0, acc => acc
  | f + 1, acc =>
    let w2 := acc.getD 1 0
    let w7 := acc.getD 6 0
    let w15 := acc.getD 14 0
    let w16 := acc.getD 15 0
    let w := (smallSigma1 w2 + w7 + smallSigma0 w15 + w16) % M32
    sha256ExtendRev f (w :: acc)

/-- The 64-word message schedule of a 16-word block. -/
def sha256Schedule (block : List Nat) : List Nat :=
  (sha256ExtendRev 48 block.reverse).reverse

/-- One SHA-256 round on the 8-word working state. -/
def sha256Round (st : List Nat) (kw : Nat × Nat) : List Nat :=
  match st with
  | [a, b, c, d, e, f, g, h] =>
    let t1 := (h + bigSigma1 e + shaCh e f g + kw.1 + kw.2) % M32
    let t2 := (bigSigma0 a + shaMaj a b c) % M32
    [(t1 + t2) % M32, a, b, c, (d + t1) % M32, e, f, g]
  | other => other

/-- SHA-256 compression of one 16-word block into the hash state. -/
def sha256Compress (h : List Nat) (block : List Nat) : List Nat :=
  let ws := sha256Schedule block
  let st := (sha256K.zip ws).foldl sha256Round h
  (h.zip st).map (fun p => (p.1 + p.2) % M32)

/-- Fold the compression function over consecutive 16-word blocks. -/
def sha256Process (h : List Nat) : List Nat → List Nat
  | w0 :: w1 :: w2 :: w3 :: w4 :: w5 :: w6 :: w7 ::
    w8 :: w9 :: w10 :: w11 :: w12 :: w13 :: w14 :: w15 :: rest =>
      sha256Process
        (sha256Compress h
          [w0, w1, w2, w3, w4, w5, w6, w7, w8, w9, w10, w11, w12, w13, w14, w15])
        rest
  | _ => h

/-- SHA-256 digest of a byte list, as 32 bytes. -/
def sha256 (msg : List Nat) : List Nat :=
  ((sha256Process sha256H0 (bytesToWords (sha256Pad msg))).map (beBytes 4)).flatten

/-- Lower-case hex digit characters, indexed 0–15. -/
def hexDigitChar (n : Nat) : Char := ("0123456789abcdef").data.getD n 'x'

/-- Lower-case hex rendering of a byte list (Python `.hexdigest()` / `.hex()`). -/
def bytesToHex (bs : List Nat) : Str :=
  (bs.map (fun b => [hexDigitChar (b / 16), hexDigitChar (b % 16)])).flatten

/-- `hashlib.sha256(msg).hexdigest()`. -/
def sha256Hex (msg : List Nat) : Str := bytesToHex (sha256 msg)

/-! ## HMAC-SHA256 and PBKDF2 (`hmac`, `hashlib.pbkdf2_hmac`) -/

/-- HMAC-SHA256 over byte lists (RFC 2104, block size 64). -/
def hmacSha256 (key msg : List Nat) : List Nat :=
  let k0 := if 64 < key.length then sha256 key else key
  let k := k0 ++ List.replicate (64 - k0.length) 0
  let ip := k.map (fun b => b ^^^ 54)
  let op := k.map (fun b => b ^^^ 92)
  sha256 (op ++ sha256 (ip ++ msg))

/-- Byte-wise xor of two equal-length byte lists. -/
def xorBytes (a b : List Nat) : List Nat :=
  (a.zip b).map (fun p => p.1 ^^^ p.2)

/-- The iteration loop of PBKDF2: `u` is the previous `U_i`, `acc` the
running xor. -/
def pbkdf2Loop (password u acc : List Nat) : Nat → List Nat
  | 0 => acc
  | n + 1 =>
    let u' := hmacSha256 password u
    pbkdf2Loop password u' (xorBytes acc u') n

/-- `hashlib.pbkdf2_hmac("sha256", password, salt, c)` with the default
32-byte output (a single PBKDF2 block). -/
def pbkdf2HmacSha256 (password salt : List Nat) (c : Nat) : List Nat :=
  let u1 := hmacSha256 password (salt ++ [0, 0, 0, 1])
  pbkdf2Loop password u1 u1 (c - 1)

/-! ## String helpers mirroring the Python string operations used -/

/-- Python `s.split(sep)` for a one-character separator, on char lists. -/
def splitChar (sep : Char) : Str → List Str
  | [] => [[]]
  | c :: rest =>
    match splitChar sep rest with
    | [] => [[]]
    | h :: t => if c = sep then [] :: h :: t else (c :: h) :: t

/-- Python `s.startswith(p)`: `p` is an initial segment of `s`. -/
def strHasPfx (p s : Str) : Bool :=
  match p, s with
  | [], _ => true
  | _ :: _, [] => false
  | a :: p', b :: s' => a = b && strHasPfx p' s'

/-- Decimal digit characters used by `str(int)`. -/
def digitChar (n : Nat) : Char := ("0123456789").data.getD n 'x'

/-- Fuel-driven decimal rendering (the fuel only bounds recursion depth). -/
def natDigitsAux : Nat → Nat → Str
  | _, 0 => []
  | n, fuel + 1 =>
    if n < 10 then [digitChar n]
    else natDigitsAux (n / 10) fuel ++ [digitChar (n % 10)]

/-- Python `str(n)` for a non-negative integer. -/
def natToStr (n : Nat) : Str := natDigitsAux n (n + 1)

/-- Value of one hex digit (`bytes.fromhex` digit parsing), or `none`. -/
def hexDigitVal (c : Char) : Option Nat :=
  if '0' ≤ c ∧ c ≤ '9' then some (c.toNat - 48)
  else if 'a' ≤ c ∧ c ≤ 'f' then some (c.toNat - 87)
  else if 'A' ≤ c ∧ c ≤ 'F' then some (c.toNat - 55)
  else none

/-- Python `bytes.fromhex` on a plain even-length hex string; `none`
models the `ValueError` it raises on malformed input. -/
def hexToBytes : Str → Option (List Nat)
  | [] => some []
  | [_] => none
  | a :: b :: rest =>
    match hexDigitVal a, hexDigitVal b, hexToBytes rest with
    | some x, some y, some t => some ((16 * x + y) :: t)
    | _, _, _ => none

/-! ## Stateless token functions (`admin/auth.py` lines 271–297)

`create_access_token` reads the clock (`int(time.time() * 1000)`) and
16 random bytes (`secrets.token_hex(16)`); these effects are passed in
as the parameters `timeMillis` and `randBytes`. -/

/-- `create_access_token(username, secret)` from `admin/auth.py`. -/
def create_access_token (username secret : Str) (timeMillis : Nat)
    (randBytes : List Nat) : Str :=
  let timestamp := natToStr timeMillis
  let random_part := bytesToHex randBytes
  let data := username ++ ':' :: timestamp ++ ':' :: random_part
  let signature := (sha256Hex (strBytes (data ++ ':' :: secret))).take 32
  data ++ ':' :: signature

/-- The module-level stateless `verify_token(token, secret)` from
`admin/auth.py`. -/
def verify_token (token secret : Str) : Option Str :=
  match splitChar ':' token with
  | [username, timestamp, random_part, signature] =>
    let data := username ++ ':' :: timestamp ++ ':' :: random_part
    let expected := (sha256Hex (strBytes (data ++ ':' :: secret))).take 32
    if signature = expected then some username else none
  | _ => none

/-! ## Association-list model of Python `dict` / `OrderedDict`

Python dicts preserve insertion order; assigning to an existing key
keeps its position, assigning a fresh key appends.  `OrderedDict`
additionally has `move_to_end` and `popitem(last=False)` (drop the
front, i.e. oldest, entry). -/

/-- `m.get(k)` / `m[k]` lookup. -/
def alookup {α : Type} (m : List (Str × α)) (k : Str) : Option α :=
  match m with
  | [] => none
  | (k', v) :: rest => if k' = k then some v else alookup rest k

/-- `m[k] = v`: replace in place when present, else append. -/
def aset {α : Type} (m : List (Str × α)) (k : Str) (v : α) : List (Str × α) :=
  match m with
  | [] => [(k, v)]
  | (k', v') :: rest => if k' = k then (k, v) :: rest else (k', v') :: aset rest k v

/-- `del m[k]`: drop the entry for `k` (first occurrence). -/
def aerase {α : Type} (m : List (Str × α)) (k : Str) : List (Str × α) :=
  match m with
  | [] => []
  | (k', v') :: rest => if k' = k then rest else (k', v') :: aerase rest k

/-- `m.move_to_end(k)` for a present key. -/
def moveToEnd {α : Type} (m : List (Str × α)) (k : Str) : List (Str × α) :=
  match alookup m k with
  | none => m
  | some v => aerase m k ++ [(k, v)]

/-! ## Credential & token manager (`AuthManager`, `admin/auth.py`)

`datetime` values are modelled as `Int` (seconds); `timedelta(hours=24)`
is the constant 86400.  Random salts and the disk-write outcome of
`_save_users` are explicit parameters: `_save_users` (lines 94–109 of
`admin/auth.py`) contains no exception handler, so a failing write
raises through the calling operation — modelled as `Except.error ()`
returned alongside the (already mutated) state. -/

/-- `AdminUser` (pydantic model). -/
structure AdminUser where
  username : Str
  passwordHash : Str
  createdAt : Int
  lastLogin : Option Int
deriving DecidableEq

/-- `TokenData` (pydantic model). -/
structure TokenData where
  username : Str
  exp : Int
  iat : Int
deriving DecidableEq

/-- The mutable state of an `AuthManager`: `_users`, `_active_tokens`
and the loaded `_jwt_secret`. -/
structure AuthState where
  users : List (Str × AdminUser)
  activeTokens : List (Str × TokenData)
  jwtSecret : Str
deriving DecidableEq

/-- `_HASH_PREFIX = "pbkdf2:"`. -/
def pbkdf2Tag : Str := ("pbkdf2:").data

/-- `AuthManager._hash_password`; `salt` is the 32-byte random salt
drawn by `secrets.token_bytes(32)`. -/
def hashPassword (salt : List Nat) (password : Str) : Str :=
  pbkdf2Tag ++ bytesToHex salt ++
    ':' :: bytesToHex (pbkdf2HmacSha256 (strBytes password) salt 260000)

/-- `AuthManager._verify_password`: tagged-PBKDF2 branch with malformed
input caught to `False`, legacy branch comparing a bare SHA-256
hexdigest.  `hmac.compare_digest` is equality. -/
def verifyPassword (password stored : Str) : Bool :=
  if strHasPfx pbkdf2Tag stored then
    match splitChar ':' stored with
    | [_, saltHex, hashHex] =>
      match hexToBytes saltHex, hexToBytes hashHex with
      | some salt, some expected =>
        decide (pbkdf2HmacSha256 (strBytes password) salt 260000 = expected)
      | _, _ => false
    | _ => false
  else
    decide (stored = sha256Hex (strBytes password))

namespace AuthManager

/-- `AuthManager.create_user`. -/
def create_user (st : AuthState) (username password : Str) (salt : List Nat)
    (now : Int) (saveOk : Bool) : AuthState × Except Unit Bool :=
  if (alookup st.users username).isSome then (st, .ok false)
  else
    let user : AdminUser := ⟨username, hashPassword salt password, now, none⟩
    let st' := { st with users := aset st.users username user }
    if saveOk then (st', .ok true) else (st', .error ())

/-- `AuthManager.delete_user`. -/
def delete_user (st : AuthState) (username : Str) (saveOk : Bool) :
    AuthState × Except Unit Bool :=
  if (alookup st.users username).isNone then (st, .ok false)
  else
    let st' : AuthState :=
      { st with users := aerase st.users username,
                activeTokens :=
                  st.activeTokens.filter (fun p => !decide (p.2.username = username)) }
    if saveOk then (st', .ok true) else (st', .error ())

/-- `AuthManager.change_password`. -/
def change_password (st : AuthState) (username oldPassword newPassword : Str)
    (salt : List Nat) (saveOk : Bool) : AuthState × Except Unit Bool :=
  match alookup st.users username with
  | none => (st, .ok false)
  | some user =>
    if verifyPassword oldPassword user.passwordHash then
      let user' := { user with passwordHash := hashPassword salt newPassword }
      let st' : AuthState :=
        { st with users := aset st.users username user',
                  activeTokens :=
                    st.activeTokens.filter (fun p => !decide (p.2.username = username)) }
      if saveOk then (st', .ok true) else (st', .error ())
    else (st, .ok false)

/-- `AuthManager.authenticate`.  The clock is read as `now` (datetime)
and `nowMillis` (`int(time.time() * 1000)`); `upgradeSalt` is the salt
used if a legacy hash is upgraded, `randBytes` the 16 random token
bytes.  The save happens before the token is minted, so a failing save
raises with the user record updated but no token recorded. -/
def authenticate (st : AuthState) (username password : Str)
    (upgradeSalt : List Nat) (now : Int) (nowMillis : Nat)
    (randBytes : List Nat) (saveOk : Bool) :
    AuthState × Except Unit (Option Str) :=
  match alookup st.users username with
  | none => (st, .ok none)
  | some user =>
    if verifyPassword password user.passwordHash then
      let hash1 := if strHasPfx pbkdf2Tag user.passwordHash then user.passwordHash
                   else hashPassword upgradeSalt password
      let user' := { user with passwordHash := hash1, lastLogin := some now }
      let st1 := { st with users := aset st.users username user' }
      if saveOk then
        let token := create_access_token username st.jwtSecret nowMillis randBytes
        let td : TokenData := ⟨username, now + 86400, now⟩
        let st2 := { st1 with activeTokens := aset st1.activeTokens token td }
        (st2, .ok (some token))
      else (st1, .error ())
    else (st, .ok none)

/-- `AuthManager.verify_token`: in-memory lookup with eviction of an
expired record. -/
def verify_token (st : AuthState) (token : Str) (now : Int) :
    AuthState × Option Str :=
  match alookup st.activeTokens token with
  | none => (st, none)
  | some td =>
    if now > td.exp then
      ({ st with activeTokens := aerase st.activeTokens token }, none)
    else (st, some td.username)

/-- `AuthManager.logout`. -/
def logout (st : AuthState) (token : Str) : AuthState × Bool :=
  if (alookup st.activeTokens token).isSome then
    ({ st with activeTokens := aerase st.activeTokens token }, true)
  else (st, false)

end AuthManager

/-! ## Sliding-window rate limiter (`ratelimit.py`)

`time.time()` values are modelled as `Int`.  The `OrderedDict` ledger
is an insertion/LRU-ordered association list, front = least recently
touched. -/

/-- `RateLimiter`: limits plus the `_requests` ordered dict. -/
structure RateLimiter where
  perMinute : Nat
  perHour : Nat
  perDay : Nat
  requests : List (Str × List Int)
deriving DecidableEq

/-- `RateLimiter.MAX_TRACKED_CLIENTS`. -/
def MAX_TRACKED_CLIENTS : Nat := 10000

/-- The statistics dict returned by `get_stats`. -/
structure RateStats where
  minute : Nat
  hour : Nat
  day : Nat
  limPerMinute : Nat
  limPerHour : Nat
  limPerDay : Nat
deriving DecidableEq

/-- `RateLimiter._get_requests`: prune the client's ledger to the 24h
window, store it back and refresh the LRU position — but only when a
non-empty ledger is present (`if requests:`). -/
def get_requests (rl : RateLimiter) (c : Str) (now : Int) :
    List Int × RateLimiter :=
  let reqs := (alookup rl.requests c).getD []
  if reqs.isEmpty then ([], rl)
  else
    let cleaned := reqs.filter (fun t => decide (now - 86400 < t))
    (cleaned, { rl with requests := moveToEnd (aset rl.requests c cleaned) c })

/-- `RateLimiter._evict_if_needed`: pop front entries while the dict
holds more than `MAX_TRACKED_CLIENTS` keys. -/
def evict_if_needed (m : List (Str × List Int)) : List (Str × List Int) :=
  match m with
  | [] => []
  | x :: rest =>
    if MAX_TRACKED_CLIENTS < (x :: rest).length then evict_if_needed rest
    else x :: rest

/-- The f-string `"Rate limit exceeded: {n} requests per {unitName}"`. -/
def rateMsg (n : Nat) (unitName : Str) : Str :=
  ("Rate limit exceeded: ").data ++ natToStr n ++ (" requests per ").data ++ unitName

/-- `RateLimiter.is_allowed` (body under the lock). -/
def is_allowed (rl : RateLimiter) (c : Str) (now : Int) :
    Bool × Option Str × RateLimiter :=
  let pr := get_requests rl c now
  let reqs := pr.1
  let rl1 := pr.2
  let minuteCount := (reqs.filter (fun t => decide (now - 60 < t))).length
  if rl.perMinute ≤ minuteCount then
    (false, some (rateMsg rl.perMinute ("minute").data), rl1)
  else
    let hourCount := (reqs.filter (fun t => decide (now - 3600 < t))).length
    if rl.perHour ≤ hourCount then
      (false, some (rateMsg rl.perHour ("hour").data), rl1)
    else if rl.perDay ≤ reqs.length then
      (false, some (rateMsg rl.perDay ("day").data), rl1)
    else
      let rl2 := { rl1 with requests := evict_if_needed (aset rl1.requests c (reqs ++ [now])) }
      (true, none, rl2)

/-- `RateLimiter.record_request` (no pruning, no admission check). -/
def record_request (rl : RateLimiter) (c : Str) (now : Int) : RateLimiter :=
  let reqs := (alookup rl.requests c).getD []
  { rl with requests := evict_if_needed (moveToEnd (aset rl.requests c (reqs ++ [now])) c) }

/-- `RateLimiter.get_stats`. -/
def get_stats (rl : RateLimiter) (c : Str) (now : Int) :
    RateStats × RateLimiter :=
  let pr := get_requests rl c now
  let reqs := pr.1
  (⟨(reqs.filter (fun t => decide (now - 60 < t))).length,
    (reqs.filter (fun t => decide (now - 3600 < t))).length,
    reqs.length, rl.perMinute, rl.perHour, rl.perDay⟩, pr.2)

/-- One call into the limiter: `is_allowed` or `record_request`,
with its clock reading. -/
inductive RLOp where
  | allow (c : Str) (now : Int)
  | record (c : Str) (now : Int)

/-- State transition of one limiter call. -/
def applyOp (rl : RateLimiter) : RLOp → RateLimiter
  | .allow c now => (is_allowed rl c now).2.2
  | .record c now => record_request rl c now

/-- Run a sequence of limiter calls. -/
def runOps (rl : RateLimiter) (ops : List RLOp) : RateLimiter :=
  ops.foldl applyOp rl

/-- A fresh limiter (`RateLimiter.__init__`). -/
def mkLimiter (pm ph pd : Nat) : RateLimiter := ⟨pm, ph, pd, []⟩

/-! ## OAuth token refresher (`token_refresher.py`)

One cycle of `_run_loop` plus `_refresh_token`, as a pure function of
the cycle's effect outcomes: the loaded config (`none` = the load
raised), the exchange result (`none` = `oauth.refresh_token` raised or
the 30s hand-off timed out), and whether `save_iflow_config`
succeeded.  `IFlowOAuth` itself lives in the repository's `oauth.py`,
which is not among the provided sources; its expiry predicate is
modelled from the spec below. -/

/-- The persisted `IFlowConfig` fields the refresher touches. -/
structure IFlowConfig where
  authType : Option Str
  oauthAccessToken : Option Str
  oauthRefreshToken : Option Str
  oauthExpiresAt : Option Int
deriving DecidableEq

/-- The exchange response dict `token_data` (absent keys are `none`). -/
structure TokenResp where
  accessToken : Option Str
  refreshToken : Option Str
  expiresAt : Option Int
deriving DecidableEq

/-- Python truthiness of an `Optional[str]`: present and non-empty. -/
def truthyS (s : Option Str) : Bool :=
  match s with
  | none => false
  | some v => !v.isEmpty

/-- Modelled from the spec: `IFlowOAuth.is_token_expired` is defined in
the repository's `oauth.py`, which is missing from the provided
sources.  The spec states a refresh is due when "the expiry is within
a configurable buffer (default 5 minutes) of now (or already
passed)". -/
def is_token_expired (expiresAt : Int) (buffer : Nat) (now : Int) : Bool :=
  decide (expiresAt ≤ now + (buffer : Int))

/-- Effect outcomes observed during one refresher cycle. -/
structure CycleEffects where
  loaded : Option IFlowConfig
  exchange : Option TokenResp
  saveOk : Bool
  now : Int
deriving DecidableEq

/-- Observable outcome of one refresher cycle. -/
structure CycleOutcome where
  exchangeCalls : Nat
  saved : Option IFlowConfig
  callbackInvoked : Bool
deriving DecidableEq

/-- `OAuthTokenRefresher._refresh_token` (its `try` body; every raise
is caught and logged). -/
def refresh_token_step (cfg : IFlowConfig) (hasCb : Bool)
    (exchange : Option TokenResp) (saveOk : Bool) : CycleOutcome :=
  if !truthyS cfg.oauthRefreshToken then ⟨0, none, false⟩
  else
    match exchange with
    | none => ⟨1, none, false⟩
    | some td =>
      let cfg1 := { cfg with oauthAccessToken := some (td.accessToken.getD []) }
      let cfg2 := if truthyS td.refreshToken then { cfg1 with oauthRefreshToken := td.refreshToken } else cfg1
      let cfg3 := match td.expiresAt with
        | some e => { cfg2 with oauthExpiresAt := some e }
        | none => cfg2
      if saveOk then ⟨1, some cfg3, hasCb⟩ else ⟨1, none, false⟩

/-- One iteration of `OAuthTokenRefresher._run_loop` (the guarded
dispatch to `_refresh_token`; all exceptions swallowed). -/
def run_cycle (buffer : Nat) (hasCb : Bool) (eff : CycleEffects) : CycleOutcome :=
  match eff.loaded with
  | none => ⟨0, none, false⟩
  | some cfg =>
    match cfg.oauthExpiresAt with
    | none => ⟨0, none, false⟩
    | some e =>
      if decide (cfg.authType = some (("oauth-iflow").data)) && truthyS cfg.oauthRefreshToken then
        if is_token_expired e buffer eff.now then
          refresh_token_step cfg hasCb eff.exchange eff.saveOk
        else ⟨0, none, false⟩
      else ⟨0, none, false⟩

/-- The worker loop: every cycle runs, regardless of earlier cycles'
failures (`while` + blanket `except`). -/
def run_cycles (buffer : Nat) (hasCb : Bool) (effs : List CycleEffects) :
    List CycleOutcome :=
  effs.map (run_cycle buffer hasCb)

/-- Spec-side predicate: the persisted credential is in delegated-OAuth
mode, holds a refresh token and an expiry, and that expiry is within
`buffer` seconds of now (or already passed). -/
def refreshDue (buffer : Nat) (eff : CycleEffects) : Prop :=
  ∃ cfg, eff.loaded = some cfg ∧
    cfg.authType = some (("oauth-iflow").data) ∧
    truthyS cfg.oauthRefreshToken = true ∧
    ∃ e, cfg.oauthExpiresAt = some e ∧ e ≤ eff.now + (buffer : Int)

/-! ## Validation of the crypto layer against published test vectors -/

/-- Validation against the FIPS 180-2 test vector for `"abc"`. -/
theorem sha256_abc_vector :
    sha256Hex (strBytes ("abc").data) =
      ("ba7816bf8f01cfea414140de5dae2223b00361a396177a9cb410ff61f20015ad").data := by
  decide

set_option maxRecDepth 100000 in
/-- Validation of HMAC-SHA256 against the RFC 4231-style test vector. -/
theorem hmac_vector :
    bytesToHex (hmacSha256 (strBytes ("key").data)
        (strBytes ("The quick brown fox jumps over the lazy dog").data)) =
      ("f7bc83f430538424b13298e6aa6fb143ef4d59a14946175997479dbc2d1a3cd8").data := by
  decide


/-! ## Lemmas: splitting and colon-freeness -/

theorem splitChar_ne_nil (sep : Char) (s : Str) : splitChar sep s ≠ [] := by
  induction s with
  | nil => simp [splitChar]
  | cons c rest ih =>
    simp only [splitChar]
    cases h : splitChar sep rest with
    | nil => exact absurd h ih
    | cons hd tl => by_cases hc : c = sep <;> simp [hc]

theorem splitChar_of_not_mem (sep : Char) (a : Str) (ha : sep ∉ a) :
    splitChar sep a = [a] := by
  induction a with
  | nil => rfl
  | cons c rest ih =>
    have hc : ¬ (c = sep) := by
      rintro rfl; exact ha (List.mem_cons_self _ _)
    have hr : sep ∉ rest := fun h => ha (List.mem_cons_of_mem _ h)
    simp [splitChar, ih hr, hc]

theorem splitChar_append (sep : Char) (a b : Str) (ha : sep ∉ a) :
    splitChar sep (a ++ sep :: b) = a :: splitChar sep b := by
  induction a with
  | nil =>
    simp only [List.nil_append, splitChar]
    cases h : splitChar sep b with
    | nil => exact absurd h (splitChar_ne_nil sep b)
    | cons hd tl => simp
  | cons c rest ih =>
    have hc : ¬ (c = sep) := by
      rintro rfl; exact ha (List.mem_cons_self _ _)
    have hr : sep ∉ rest := fun h => ha (List.mem_cons_of_mem _ h)
    simp only [List.cons_append, splitChar, List.append_eq]
    rw [ih hr]
    simp [hc]

theorem getD_mem_or_eq {α : Type} (l : List α) (n : Nat) (d : α) :
    l.getD n d ∈ l ∨ l.getD n d = d := by
  induction l generalizing n with
  | nil => right; cases n <;> rfl
  | cons a t ih =>
    cases n with
    | zero => left; exact List.mem_cons_self _ _
    | succ m =>
      rcases ih m with h | h
      · left; exact List.mem_cons_of_mem _ h
      · right; exact h

theorem hexDigitChar_ne_colon (n : Nat) : hexDigitChar n ≠ ':' := by
  unfold hexDigitChar
  rcases getD_mem_or_eq (("0123456789abcdef").data) n 'x' with h | h
  · intro hc; rw [hc] at h; revert h; decide
  · rw [h]; decide

theorem bytesToHex_no_colon (bs : List Nat) : ':' ∉ bytesToHex bs := by
  intro h
  simp only [bytesToHex, List.mem_flatten, List.mem_map] at h
  obtain ⟨l, ⟨b, _, rfl⟩, hl⟩ := h
  simp only [List.mem_cons, List.not_mem_nil, or_false] at hl
  rcases hl with h | h
  · exact hexDigitChar_ne_colon _ h.symm
  · exact hexDigitChar_ne_colon _ h.symm

theorem digitChar_ne_colon (n : Nat) : digitChar n ≠ ':' := by
  unfold digitChar
  rcases getD_mem_or_eq (("0123456789").data) n 'x' with h | h
  · intro hc; rw [hc] at h; revert h; decide
  · rw [h]; decide

theorem natDigitsAux_no_colon (fuel n : Nat) : ':' ∉ natDigitsAux n fuel := by
  induction fuel generalizing n with
  | zero => simp [natDigitsAux]
  | succ f ih =>
    simp only [natDigitsAux]
    split
    · intro h
      simp only [List.mem_cons, List.not_mem_nil, or_false] at h
      exact digitChar_ne_colon _ h.symm
    · intro h
      rcases List.mem_append.mp h with h | h
      · exact ih _ h
      · simp only [List.mem_cons, List.not_mem_nil, or_false] at h
        exact digitChar_ne_colon _ h.symm

theorem natToStr_no_colon (n : Nat) : ':' ∉ natToStr n :=
  natDigitsAux_no_colon _ _

theorem take_no_colon (s : Str) (n : Nat) (h : ':' ∉ s) : ':' ∉ s.take n :=
  fun hm => h (List.take_subset n s hm)

theorem sha256Hex_no_colon (msg : List Nat) : ':' ∉ sha256Hex msg :=
  bytesToHex_no_colon _

/-- The token minted by `create_access_token` splits on `':'` into
exactly the four wire fields, with the signature being the first 32 hex
characters of the SHA-256 of `"{data}:{secret}"`. -/
theorem splitChar_token (username secret : Str) (tm : Nat) (rb : List Nat)
    (hu : ':' ∉ username) :
    splitChar ':' (create_access_token username secret tm rb) =
      [username, natToStr tm, bytesToHex rb,
        (sha256Hex (strBytes ((username ++ ':' :: natToStr tm ++ ':' :: bytesToHex rb)
          ++ ':' :: secret))).take 32] := by
  unfold create_access_token
  simp only [List.append_assoc, List.cons_append]
  rw [splitChar_append ':' username _ hu,
      splitChar_append ':' (natToStr tm) _ (natToStr_no_colon tm),
      splitChar_append ':' (bytesToHex rb) _ (bytesToHex_no_colon rb),
      splitChar_of_not_mem ':' _ (take_no_colon _ _ (sha256Hex_no_colon _))]

/-! ## C1: bearer token wire format -/

set_option maxRecDepth 100000 in
/-- C1 (counterexample): at username `"a"`, secret `"s"`, timestamp 0
and zero random bytes, the signature field of the minted token is NOT
the first 32 hex characters of HMAC-SHA256 keyed by the secret over
`"{username}:{timestampMillis}:{randomHex16}"` — the code signs with a
plain SHA-256 of `"{data}:{secret}"` instead. -/
theorem c1_sig_is_not_hmac :
    (splitChar ':' (create_access_token ("a").data ("s").data 0
        (List.replicate 16 0))).getD 3 [] ≠
      (bytesToHex (hmacSha256 (strBytes ("s").data)
        (strBytes (("a:0:00000000000000000000000000000000").data)))).take 32 := by
  decide

/-- C1 (amended): the token returned by `create_access_token` has the
four-field form `"{username}:{timestampMillis}:{randomHex16}:{signatureHex32}"`
(for a colon-free username), where the signature equals the first 32 hex
characters of `SHA-256("{username}:{timestampMillis}:{randomHex16}:{secret}")`
— a plain hash over data and secret concatenated, not an HMAC. -/
theorem c1_token_wire_format (username secret : Str) (tm : Nat) (rb : List Nat)
    (hu : ':' ∉ username) :
    splitChar ':' (create_access_token username secret tm rb) =
      [username, natToStr tm, bytesToHex rb,
        (sha256Hex (strBytes ((username ++ ':' :: natToStr tm ++ ':' :: bytesToHex rb)
          ++ ':' :: secret))).take 32] :=
  splitChar_token username secret tm rb hu

/-- C1 witness: the wire-format theorem applied at a concrete input. -/
theorem c1_token_wire_format_witness :
    ':' ∉ ("admin").data ∧
    splitChar ':' (create_access_token ("admin").data ("sec").data 12 [7]) =
      [("admin").data, natToStr 12, bytesToHex [7],
        (sha256Hex (strBytes ((("admin").data ++ ':' :: natToStr 12 ++ ':' :: bytesToHex [7])
          ++ ':' :: ("sec").data))).take 32] :=
  ⟨by decide, c1_token_wire_format (("admin").data) (("sec").data) 12 [7] (by decide)⟩

/-! ## C10: stateless round trip -/

/-- C10: for any colon-free username and any secret, the module-level
stateless `verify_token` accepts a token minted by
`create_access_token` with the same secret and returns the username —
independently of any `AuthManager` state (neither function reads any). -/
theorem c10_stateless_roundtrip (username secret : Str) (tm : Nat) (rb : List Nat)
    (hu : ':' ∉ username) :
    verify_token (create_access_token username secret tm rb) secret = some username := by
  unfold verify_token
  rw [splitChar_token username secret tm rb hu]
  simp

/-- C10 witness: the round trip evaluated at a concrete input. -/
theorem c10_stateless_roundtrip_witness :
    ':' ∉ ("admin").data ∧
    verify_token (create_access_token ("admin").data ("k1").data 7 [1, 2])
        (("k1").data) = some (("admin").data) :=
  ⟨by decide, c10_stateless_roundtrip (("admin").data) (("k1").data) 7 [1, 2] (by decide)⟩

/-! ## Lemmas: association lists -/

theorem alookup_eq_none_iff {α : Type} (m : List (Str × α)) (k : Str) :
    alookup m k = none ↔ k ∉ m.map Prod.fst := by
  induction m with
  | nil => simp [alookup]
  | cons p rest ih =>
    obtain ⟨k', v⟩ := p
    simp only [alookup, List.map_cons, List.mem_cons]
    by_cases h : k' = k
    · subst h
      rw [if_pos rfl]
      constructor
      · intro hc; exact absurd hc (Option.some_ne_none v)
      · intro hn; exact absurd (Or.inl rfl) hn
    · rw [if_neg h, ih]
      constructor
      · rintro hn (rfl | hmem)
        · exact h rfl
        · exact hn hmem
      · intro hn hmem
        exact hn (Or.inr hmem)

theorem moveToEnd_of_none {α : Type} (m : List (Str × α)) (k : Str)
    (h : alookup m k = none) : moveToEnd m k = m := by
  unfold moveToEnd
  rw [h]

theorem moveToEnd_of_some {α : Type} (m : List (Str × α)) (k : Str) (v : α)
    (h : alookup m k = some v) : moveToEnd m k = aerase m k ++ [(k, v)] := by
  unfold moveToEnd
  rw [h]

theorem alookup_aset_self {α : Type} (m : List (Str × α)) (k : Str) (v : α) :
    alookup (aset m k v) k = some v := by
  induction m with
  | nil => simp [aset, alookup]
  | cons p rest ih =>
    obtain ⟨k', v'⟩ := p
    by_cases h : k' = k <;> simp [aset, alookup, h, ih]

theorem alookup_aset_ne {α : Type} (m : List (Str × α)) (k d : Str) (v : α)
    (hne : d ≠ k) : alookup (aset m k v) d = alookup m d := by
  induction m with
  | nil => simp [aset, alookup, Ne.symm hne]
  | cons p rest ih =>
    obtain ⟨k', v'⟩ := p
    by_cases h : k' = k
    · subst h; simp [aset, alookup, Ne.symm hne]
    · simp [aset, alookup, h, ih]

theorem alookup_aerase_ne {α : Type} (m : List (Str × α)) (k d : Str)
    (hne : d ≠ k) : alookup (aerase m k) d = alookup m d := by
  induction m with
  | nil => simp [aerase]
  | cons p rest ih =>
    obtain ⟨k', v'⟩ := p
    by_cases h : k' = k
    · subst h; simp [aerase, alookup, Ne.symm hne]
    · simp [aerase, alookup, h, ih]

theorem alookup_aerase_self {α : Type} (m : List (Str × α)) (k : Str)
    (hnd : (m.map Prod.fst).Nodup) : alookup (aerase m k) k = none := by
  induction m with
  | nil => simp [aerase, alookup]
  | cons p rest ih =>
    obtain ⟨k', v'⟩ := p
    simp only [List.map_cons, List.nodup_cons] at hnd
    by_cases h : k' = k
    · subst h
      simp only [aerase, if_pos rfl]
      exact (alookup_eq_none_iff _ _).mpr hnd.1
    · simp [aerase, alookup, h, ih hnd.2]

theorem alookup_append_of_none {α : Type} (l1 l2 : List (Str × α)) (k : Str)
    (h : alookup l1 k = none) : alookup (l1 ++ l2) k = alookup l2 k := by
  induction l1 with
  | nil => simp
  | cons p rest ih =>
    obtain ⟨k', v'⟩ := p
    by_cases hk : k' = k
    · simp [alookup, hk] at h
    · simp only [List.cons_append, alookup, if_neg hk] at h ⊢
      exact ih h

theorem alookup_append_of_some {α : Type} (l1 l2 : List (Str × α)) (k : Str)
    (v : α) (h : alookup l1 k = some v) : alookup (l1 ++ l2) k = some v := by
  induction l1 with
  | nil => simp [alookup] at h
  | cons p rest ih =>
    obtain ⟨k', v'⟩ := p
    by_cases hk : k' = k
    · simp only [alookup, if_pos hk] at h ⊢
      simpa using h
    · simp only [List.cons_append, alookup, if_neg hk] at h ⊢
      exact ih h

theorem alookup_moveToEnd_ne {α : Type} (m : List (Str × α)) (k d : Str)
    (hne : d ≠ k) : alookup (moveToEnd m k) d = alookup m d := by
  cases h : alookup m k with
  | none => rw [moveToEnd_of_none m k h]
  | some v =>
    rw [moveToEnd_of_some m k v h]
    cases h2 : alookup (aerase m k) d with
    | some w =>
      rw [alookup_append_of_some _ _ _ _ h2]
      rw [← alookup_aerase_ne m k d hne, h2]
    | none =>
      rw [alookup_append_of_none _ _ _ h2, ← alookup_aerase_ne m k d hne, h2]
      simp only [alookup]
      rw [if_neg (fun hkd => hne hkd.symm)]

theorem alookup_moveToEnd_self {α : Type} (m : List (Str × α)) (k : Str)
    (hnd : (m.map Prod.fst).Nodup) : alookup (moveToEnd m k) k = alookup m k := by
  cases h : alookup m k with
  | none => rw [moveToEnd_of_none m k h]; exact h
  | some v =>
    rw [moveToEnd_of_some m k v h,
        alookup_append_of_none _ _ _ (alookup_aerase_self m k hnd)]
    simp [alookup]

theorem length_aset_present {α : Type} (m : List (Str × α)) (k : Str) (v w : α)
    (h : alookup m k = some w) : (aset m k v).length = m.length := by
  induction m with
  | nil => simp [alookup] at h
  | cons p rest ih =>
    obtain ⟨k', v'⟩ := p
    by_cases hk : k' = k
    · simp [aset, hk]
    · simp only [alookup, if_neg hk] at h
      simp [aset, hk, ih h]

theorem length_aset_absent {α : Type} (m : List (Str × α)) (k : Str) (v : α)
    (h : alookup m k = none) : (aset m k v).length = m.length + 1 := by
  induction m with
  | nil => simp [aset]
  | cons p rest ih =>
    obtain ⟨k', v'⟩ := p
    by_cases hk : k' = k
    · simp [alookup, hk] at h
    · simp only [alookup, if_neg hk] at h
      simp [aset, hk, ih h]

theorem length_aerase_present {α : Type} (m : List (Str × α)) (k : Str) (w : α)
    (h : alookup m k = some w) : (aerase m k).length + 1 = m.length := by
  induction m with
  | nil => simp [alookup] at h
  | cons p rest ih =>
    obtain ⟨k', v'⟩ := p
    by_cases hk : k' = k
    · simp [aerase, hk]
    · simp only [alookup, if_neg hk] at h
      simp [aerase, hk, ih h]

theorem length_moveToEnd {α : Type} (m : List (Str × α)) (k : Str) :
    (moveToEnd m k).length = m.length := by
  cases h : alookup m k with
  | none => rw [moveToEnd_of_none m k h]
  | some v =>
    rw [moveToEnd_of_some m k v h, List.length_append]
    simpa using length_aerase_present m k v h

theorem keys_aset_present {α : Type} (m : List (Str × α)) (k : Str) (v w : α)
    (h : alookup m k = some w) :
    (aset m k v).map Prod.fst = m.map Prod.fst := by
  induction m with
  | nil => simp [alookup] at h
  | cons p rest ih =>
    obtain ⟨k', v'⟩ := p
    by_cases hk : k' = k
    · simp [aset, hk]
    · simp only [alookup, if_neg hk] at h
      simp [aset, hk, ih h]

theorem keys_aset_absent {α : Type} (m : List (Str × α)) (k : Str) (v : α)
    (h : alookup m k = none) :
    (aset m k v).map Prod.fst = m.map Prod.fst ++ [k] := by
  induction m with
  | nil => simp [aset]
  | cons p rest ih =>
    obtain ⟨k', v'⟩ := p
    by_cases hk : k' = k
    · simp [alookup, hk] at h
    · simp only [alookup, if_neg hk] at h
      simp [aset, hk, ih h]

theorem aerase_sublist {α : Type} (m : List (Str × α)) (k : Str) :
    List.Sublist (aerase m k) m := by
  induction m with
  | nil => simp [aerase]
  | cons p rest ih =>
    obtain ⟨k', v'⟩ := p
    by_cases hk : k' = k
    · simp only [aerase, if_pos hk]
      exact List.sublist_cons_self _ _
    · simp only [aerase, if_neg hk]
      exact ih.cons₂ _

theorem nodup_keys_aset {α : Type} (m : List (Str × α)) (k : Str) (v : α)
    (hnd : (m.map Prod.fst).Nodup) : ((aset m k v).map Prod.fst).Nodup := by
  cases h : alookup m k with
  | none =>
    rw [keys_aset_absent _ _ _ h]
    rw [List.nodup_append]
    exact ⟨hnd, List.nodup_singleton _,
      fun a ha hb => by
        simp only [List.mem_singleton] at hb
        subst hb
        exact (alookup_eq_none_iff _ _).mp h ha⟩
  | some w => rw [keys_aset_present _ _ _ _ h]; exact hnd

theorem nodup_keys_aerase {α : Type} (m : List (Str × α)) (k : Str)
    (hnd : (m.map Prod.fst).Nodup) : ((aerase m k).map Prod.fst).Nodup :=
  hnd.sublist ((aerase_sublist m k).map Prod.fst)

theorem nodup_keys_moveToEnd {α : Type} (m : List (Str × α)) (k : Str)
    (hnd : (m.map Prod.fst).Nodup) : ((moveToEnd m k).map Prod.fst).Nodup := by
  cases h : alookup m k with
  | none => rw [moveToEnd_of_none m k h]; exact hnd
  | some v =>
    rw [moveToEnd_of_some m k v h, List.map_append, List.nodup_append]
    refine ⟨nodup_keys_aerase m k hnd, List.nodup_singleton _, ?_⟩
    intro a ha hb
    simp only [List.map_cons, List.map_nil, List.mem_singleton] at hb
    subst hb
    exact (alookup_eq_none_iff _ _).mp (alookup_aerase_self _ _ hnd) ha

theorem evict_eq_drop (m : List (Str × List Int)) :
    evict_if_needed m = m.drop (m.length - MAX_TRACKED_CLIENTS) := by
  induction m with
  | nil => rfl
  | cons x rest ih =>
    simp only [evict_if_needed]
    by_cases h : MAX_TRACKED_CLIENTS < (x :: rest).length
    · rw [if_pos h, ih]
      have he : (x :: rest).length - MAX_TRACKED_CLIENTS =
          (rest.length - MAX_TRACKED_CLIENTS) + 1 := by
        simp only [List.length_cons] at h ⊢
        omega
      rw [he, List.drop_succ_cons]
    · rw [if_neg h]
      have he : (x :: rest).length - MAX_TRACKED_CLIENTS = 0 := by
        simp only [List.length_cons, not_lt] at h ⊢
        omega
      rw [he, List.drop_zero]

theorem evict_length_le (m : List (Str × List Int)) :
    (evict_if_needed m).length ≤ MAX_TRACKED_CLIENTS := by
  rw [evict_eq_drop, List.length_drop]
  omega

theorem alookup_drop_append {α : Type} (m : List (Str × α)) (k : Str) (v : α)
    (j : Nat) (hj : j ≤ m.length) (hk : k ∉ m.map Prod.fst) :
    alookup ((m ++ [(k, v)]).drop j) k = some v := by
  rw [List.drop_append_of_le_length hj]
  have hnone : alookup (m.drop j) k = none := by
    rw [alookup_eq_none_iff]
    intro hmem
    exact hk (List.map_subset Prod.fst (List.drop_subset j m) hmem)
  rw [alookup_append_of_none _ _ _ hnone]
  simp [alookup]

/-! ## C5: token validation is presence-in-memory -/

theorem verify_token_of_none (st : AuthState) (token : Str) (now : Int)
    (h : alookup st.activeTokens token = none) :
    AuthManager.verify_token st token now = (st, none) := by
  unfold AuthManager.verify_token
  rw [h]

theorem verify_token_of_some (st : AuthState) (token : Str) (now : Int)
    (td : TokenData) (h : alookup st.activeTokens token = some td) :
    AuthManager.verify_token st token now =
      if now > td.exp then
        ({ st with activeTokens := aerase st.activeTokens token }, none)
      else (st, some td.username) := by
  unfold AuthManager.verify_token
  rw [h]

/-- C5: `AuthManager.verify_token` returns a username exactly when the
token is present in the in-memory record map with an unexpired record;
an expired record is evicted during the check; and a token absent from
the map (whatever its content — in particular one whose signature would
re-derive correctly, e.g. a revoked or foreign token) yields `none`
with the state untouched. -/
theorem c5_verify_token_presence (st : AuthState) (token : Str) (now : Int) :
    (∀ u, (AuthManager.verify_token st token now).2 = some u ↔
      ∃ td, alookup st.activeTokens token = some td ∧ td.username = u ∧ now ≤ td.exp) ∧
    (∀ td, alookup st.activeTokens token = some td → td.exp < now →
      AuthManager.verify_token st token now =
        ({ st with activeTokens := aerase st.activeTokens token }, none)) ∧
    (alookup st.activeTokens token = none →
      AuthManager.verify_token st token now = (st, none)) := by
  refine ⟨fun u => ?_, fun td htd hlt => ?_,
    fun hn => verify_token_of_none st token now hn⟩
  · cases h : alookup st.activeTokens token with
    | none =>
      rw [verify_token_of_none st token now h]
      constructor
      · intro hc; cases hc
      · rintro ⟨td, htd, _, _⟩
        cases htd
    | some td =>
      rw [verify_token_of_some st token now td h]
      by_cases hexp : now > td.exp
      · rw [if_pos hexp]
        constructor
        · intro hc; cases hc
        · rintro ⟨td', htd', hu, hle⟩
          cases htd'
          exact absurd hexp (not_lt.mpr hle)
      · rw [if_neg hexp]
        constructor
        · intro hc
          cases hc
          exact ⟨td, rfl, rfl, not_lt.mp hexp⟩
        · rintro ⟨td', htd', rfl, hle⟩
          cases htd'
          rfl
  · rw [verify_token_of_some st token now td htd, if_pos hlt]

/-- C5 witness: a present, unexpired record validates; evaluated at a
concrete manager state. -/
theorem c5_verify_token_presence_witness :
    (AuthManager.verify_token
      ⟨[], [(("t").data, ⟨("u").data, 10, 0⟩)], []⟩ ("t").data 5).2 =
        some (("u").data) :=
  ((c5_verify_token_presence ⟨[], [(("t").data, ⟨("u").data, 10, 0⟩)], []⟩
      (("t").data) 5).1 (("u").data)).mpr
    ⟨⟨("u").data, 10, 0⟩, by decide, rfl, by decide⟩

/-! ## Unfolding equations for the mutating manager operations -/

theorem alookup_filter_none {α : Type} (m : List (Str × α)) (k : Str)
    (p : Str × α → Bool) (hnd : (m.map Prod.fst).Nodup) (v : α)
    (hv : alookup m k = some v) (hp : p (k, v) = false) :
    alookup (m.filter p) k = none := by
  induction m with
  | nil => cases hv
  | cons q rest ih =>
    obtain ⟨k', v'⟩ := q
    simp only [List.map_cons, List.nodup_cons] at hnd
    by_cases hk : k' = k
    · subst hk
      simp only [alookup, if_pos rfl] at hv
      cases hv
      rw [List.filter_cons, if_neg (by rw [hp]; exact Bool.false_ne_true)]
      rw [alookup_eq_none_iff]
      intro hmem
      exact hnd.1 (List.map_subset Prod.fst (List.filter_subset' rest) hmem)
    · simp only [alookup, if_neg hk] at hv
      rw [List.filter_cons]
      by_cases hq : p (k', v') = true
      · rw [if_pos hq]
        simp only [alookup, if_neg hk]
        exact ih hnd.2 hv
      · rw [if_neg hq]
        exact ih hnd.2 hv

theorem create_user_of_present (st : AuthState) (u p : Str) (salt : List Nat)
    (now : Int) (saveOk : Bool) (user : AdminUser)
    (h : alookup st.users u = some user) :
    AuthManager.create_user st u p salt now saveOk = (st, .ok false) := by
  unfold AuthManager.create_user
  rw [h]
  simp

theorem create_user_of_absent (st : AuthState) (u p : Str) (salt : List Nat)
    (now : Int) (saveOk : Bool) (h : alookup st.users u = none) :
    AuthManager.create_user st u p salt now saveOk =
      ({ st with users := aset st.users u ⟨u, hashPassword salt p, now, none⟩ },
       if saveOk then .ok true else .error ()) := by
  unfold AuthManager.create_user
  rw [h]
  cases saveOk <;> simp

theorem delete_user_of_absent (st : AuthState) (u : Str) (saveOk : Bool)
    (h : alookup st.users u = none) :
    AuthManager.delete_user st u saveOk = (st, .ok false) := by
  unfold AuthManager.delete_user
  rw [h]
  simp

theorem delete_user_of_present (st : AuthState) (u : Str) (saveOk : Bool)
    (user : AdminUser) (h : alookup st.users u = some user) :
    AuthManager.delete_user st u saveOk =
      ({ st with
          users := aerase st.users u,
          activeTokens := st.activeTokens.filter (fun q => !decide (q.2.username = u)) },
       if saveOk then .ok true else .error ()) := by
  unfold AuthManager.delete_user
  rw [h]
  cases saveOk <;> simp

theorem change_password_of_absent (st : AuthState) (u oldP newP : Str)
    (salt : List Nat) (saveOk : Bool) (h : alookup st.users u = none) :
    AuthManager.change_password st u oldP newP salt saveOk = (st, .ok false) := by
  unfold AuthManager.change_password
  rw [h]

theorem change_password_of_wrong (st : AuthState) (u oldP newP : Str)
    (salt : List Nat) (saveOk : Bool) (user : AdminUser)
    (h : alookup st.users u = some user)
    (hv : verifyPassword oldP user.passwordHash = false) :
    AuthManager.change_password st u oldP newP salt saveOk = (st, .ok false) := by
  unfold AuthManager.change_password
  simp only [h, hv]
  simp

theorem change_password_of_ok (st : AuthState) (u oldP newP : Str)
    (salt : List Nat) (saveOk : Bool) (user : AdminUser)
    (h : alookup st.users u = some user)
    (hv : verifyPassword oldP user.passwordHash = true) :
    AuthManager.change_password st u oldP newP salt saveOk =
      ({ st with
          users := aset st.users u { user with passwordHash := hashPassword salt newP },
          activeTokens := st.activeTokens.filter (fun q => !decide (q.2.username = u)) },
       if saveOk then .ok true else .error ()) := by
  unfold AuthManager.change_password
  simp only [h, hv]
  cases saveOk <;> simp

theorem authenticate_of_absent (st : AuthState) (u p : Str) (upSalt : List Nat)
    (now : Int) (nowMs : Nat) (rb : List Nat) (saveOk : Bool)
    (h : alookup st.users u = none) :
    AuthManager.authenticate st u p upSalt now nowMs rb saveOk = (st, .ok none) := by
  unfold AuthManager.authenticate
  rw [h]

theorem authenticate_of_wrong (st : AuthState) (u p : Str) (upSalt : List Nat)
    (now : Int) (nowMs : Nat) (rb : List Nat) (saveOk : Bool) (user : AdminUser)
    (h : alookup st.users u = some user)
    (hv : verifyPassword p user.passwordHash = false) :
    AuthManager.authenticate st u p upSalt now nowMs rb saveOk = (st, .ok none) := by
  unfold AuthManager.authenticate
  simp only [h, hv]
  simp

theorem authenticate_of_ok (st : AuthState) (u p : Str) (upSalt : List Nat)
    (now : Int) (nowMs : Nat) (rb : List Nat) (saveOk : Bool) (user : AdminUser)
    (h : alookup st.users u = some user)
    (hv : verifyPassword p user.passwordHash = true) :
    AuthManager.authenticate st u p upSalt now nowMs rb saveOk =
      (if saveOk then
        ({ st with
            users := aset st.users u
              { user with
                  passwordHash := if strHasPfx pbkdf2Tag user.passwordHash then
                    user.passwordHash else hashPassword upSalt p,
                  lastLogin := some now },
            activeTokens := aset st.activeTokens
              (create_access_token u st.jwtSecret nowMs rb) ⟨u, now + 86400, now⟩ },
         .ok (some (create_access_token u st.jwtSecret nowMs rb)))
      else
        ({ st with
            users := aset st.users u
              { user with
                  passwordHash := if strHasPfx pbkdf2Tag user.passwordHash then
                    user.passwordHash else hashPassword upSalt p,
                  lastLogin := some now } },
         .error ())) := by
  unfold AuthManager.authenticate
  simp only [h, hv]
  cases saveOk <;> simp

/-! ## C9: password change revokes the user's tokens -/

/-- C9: `change_password` with a correct old password replaces the
stored hash and revokes every previously issued token of that user
(each subsequently failing `verify_token`), while a wrong old password
or an absent user yields `(st, ok false)` — the whole state, hash and
tokens included, is left unchanged. -/
theorem c9_change_password (st : AuthState) (username oldP newP : Str)
    (salt : List Nat) (saveOk : Bool) (now2 : Int)
    (hnd : (st.activeTokens.map Prod.fst).Nodup) :
    (alookup st.users username = none →
      AuthManager.change_password st username oldP newP salt saveOk = (st, .ok false)) ∧
    (∀ user, alookup st.users username = some user →
      verifyPassword oldP user.passwordHash = false →
      AuthManager.change_password st username oldP newP salt saveOk = (st, .ok false)) ∧
    (∀ user, alookup st.users username = some user →
      verifyPassword oldP user.passwordHash = true →
      alookup (AuthManager.change_password st username oldP newP salt saveOk).1.users
          username = some { user with passwordHash := hashPassword salt newP } ∧
      (∀ tok td, alookup st.activeTokens tok = some td → td.username = username →
        (AuthManager.verify_token
          (AuthManager.change_password st username oldP newP salt saveOk).1
          tok now2).2 = none)) := by
  refine ⟨fun h => change_password_of_absent st username oldP newP salt saveOk h,
    fun user h hv => change_password_of_wrong st username oldP newP salt saveOk user h hv,
    fun user h hv => ?_⟩
  rw [change_password_of_ok st username oldP newP salt saveOk user h hv]
  constructor
  · exact alookup_aset_self st.users username _
  · intro tok td htd hun
    have hnone : alookup
        (st.activeTokens.filter (fun q => !decide (q.2.username = username))) tok = none := by
      apply alookup_filter_none st.activeTokens tok _ hnd td htd
      rw [hun]
      simp
    rw [verify_token_of_none _ _ _ hnone]

/-- C9 witness: a concrete user with a legacy-format stored hash whose
password change revokes the user's outstanding token. -/
theorem c9_change_password_witness :
    (((⟨[(("u").data, ⟨("u").data, sha256Hex (strBytes ("pw").data), 0, none⟩)],
        [(("tk").data, ⟨("u").data, 10, 0⟩)], []⟩ : AuthState).activeTokens.map
          Prod.fst).Nodup ∧
      verifyPassword ("pw").data (sha256Hex (strBytes ("pw").data)) = true) ∧
    (AuthManager.verify_token
      (AuthManager.change_password
        ⟨[(("u").data, ⟨("u").data, sha256Hex (strBytes ("pw").data), 0, none⟩)],
          [(("tk").data, ⟨("u").data, 10, 0⟩)], []⟩
        ("u").data ("pw").data ("new").data [1] true).1
      ("tk").data 3).2 = none := by
  refine ⟨⟨by decide, by decide⟩, ?_⟩
  exact ((c9_change_password
      ⟨[(("u").data, ⟨("u").data, sha256Hex (strBytes ("pw").data), 0, none⟩)],
        [(("tk").data, ⟨("u").data, 10, 0⟩)], []⟩
      (("u").data) (("pw").data) (("new").data) [1] true 3
      (by decide)).2.2 ⟨("u").data, sha256Hex (strBytes ("pw").data), 0, none⟩
      (by decide) (by decide)).2
    (("tk").data) ⟨("u").data, 10, 0⟩ (by decide) rfl

/-! ## C2: persistence failures on save propagate -/

/-- C2 (counterexample): creating a fresh user while the `_save_users`
disk write fails does not return the success result — the exception
escapes `create_user` (the save has no handler). -/
theorem c2_create_user_save_failure_raises :
    (AuthManager.create_user ⟨[], [], []⟩ ("u").data ("p").data [0] 0 false).2 =
      Except.error () := by
  rfl

/-- C2 (amended): a failing `_save_users` write makes the operation
raise (`Except.error`) instead of returning its success result, but the
in-memory mutation is not rolled back: the final state equals the state
of a successful-save run (for `authenticate`, the user map does; the
token map is untouched because the save happens before the token is
minted). -/
theorem c2_save_failure_propagates (st : AuthState) (u p oldP newP : Str)
    (salt : List Nat) (now : Int) (nowMs : Nat) (rb : List Nat) :
    ((AuthManager.create_user st u p salt now false).1 =
        (AuthManager.create_user st u p salt now true).1 ∧
      (alookup st.users u = none →
        (AuthManager.create_user st u p salt now false).2 = .error ())) ∧
    ((AuthManager.delete_user st u false).1 = (AuthManager.delete_user st u true).1 ∧
      (∀ user, alookup st.users u = some user →
        (AuthManager.delete_user st u false).2 = .error ())) ∧
    ((AuthManager.change_password st u oldP newP salt false).1 =
        (AuthManager.change_password st u oldP newP salt true).1 ∧
      (∀ user, alookup st.users u = some user →
        verifyPassword oldP user.passwordHash = true →
        (AuthManager.change_password st u oldP newP salt false).2 = .error ())) ∧
    ((AuthManager.authenticate st u p salt now nowMs rb false).1.users =
        (AuthManager.authenticate st u p salt now nowMs rb true).1.users ∧
      (AuthManager.authenticate st u p salt now nowMs rb false).1.activeTokens =
        st.activeTokens ∧
      (∀ user, alookup st.users u = some user →
        verifyPassword p user.passwordHash = true →
        (AuthManager.authenticate st u p salt now nowMs rb false).2 = .error ())) := by
  refine ⟨?_, ?_, ?_, ?_⟩
  · cases h : alookup st.users u with
    | none =>
      rw [create_user_of_absent st u p salt now false h,
          create_user_of_absent st u p salt now true h]
      exact ⟨rfl, fun _ => rfl⟩
    | some user =>
      rw [create_user_of_present st u p salt now false user h,
          create_user_of_present st u p salt now true user h]
      exact ⟨rfl, fun hc => by cases hc⟩
  · cases h : alookup st.users u with
    | none =>
      rw [delete_user_of_absent st u false h, delete_user_of_absent st u true h]
      exact ⟨rfl, fun user hc => by cases hc⟩
    | some user =>
      rw [delete_user_of_present st u false user h,
          delete_user_of_present st u true user h]
      exact ⟨rfl, fun _ _ => rfl⟩
  · cases h : alookup st.users u with
    | none =>
      rw [change_password_of_absent st u oldP newP salt false h,
          change_password_of_absent st u oldP newP salt true h]
      exact ⟨rfl, fun user hc => by cases hc⟩
    | some user =>
      by_cases hv : verifyPassword oldP user.passwordHash = true
      · rw [change_password_of_ok st u oldP newP salt false user h hv,
            change_password_of_ok st u oldP newP salt true user h hv]
        exact ⟨rfl, fun user' hc hv' => rfl⟩
      · have hv2 : verifyPassword oldP user.passwordHash = false :=
          Bool.eq_false_iff.mpr hv
        rw [change_password_of_wrong st u oldP newP salt false user h hv2,
            change_password_of_wrong st u oldP newP salt true user h hv2]
        refine ⟨rfl, fun user' hc hv' => ?_⟩
        cases hc
        rw [hv2] at hv'
        cases hv'
  · cases h : alookup st.users u with
    | none =>
      rw [authenticate_of_absent st u p salt now nowMs rb false h,
          authenticate_of_absent st u p salt now nowMs rb true h]
      exact ⟨rfl, rfl, fun user hc => by cases hc⟩
    | some user =>
      by_cases hv : verifyPassword p user.passwordHash = true
      · rw [authenticate_of_ok st u p salt now nowMs rb false user h hv,
            authenticate_of_ok st u p salt now nowMs rb true user h hv]
        exact ⟨by simp, by simp, fun user' hc hv' => by simp⟩
      · have hv2 : verifyPassword p user.passwordHash = false :=
          Bool.eq_false_iff.mpr hv
        rw [authenticate_of_wrong st u p salt now nowMs rb false user h hv2,
            authenticate_of_wrong st u p salt now nowMs rb true user h hv2]
        refine ⟨rfl, rfl, fun user' hc hv' => ?_⟩
        cases hc
        rw [hv2] at hv'
        cases hv'

/-- C2 witness: the amended theorem's error results evaluated at
concrete inputs (fresh user creation, and deletion / password change /
authentication of an existing user with a legacy-format hash). -/
theorem c2_save_failure_propagates_witness :
    (AuthManager.create_user ⟨[], [], []⟩ ("u").data ("p").data [2] 0 false).2 =
      .error () ∧
    (AuthManager.delete_user
      ⟨[(("u").data, ⟨("u").data, sha256Hex (strBytes ("pw").data), 0, none⟩)], [], []⟩
      ("u").data false).2 = .error () ∧
    (AuthManager.change_password
      ⟨[(("u").data, ⟨("u").data, sha256Hex (strBytes ("pw").data), 0, none⟩)], [], []⟩
      ("u").data ("pw").data ("n").data [2] false).2 = .error () ∧
    (AuthManager.authenticate
      ⟨[(("u").data, ⟨("u").data, sha256Hex (strBytes ("pw").data), 0, none⟩)], [], []⟩
      ("u").data ("pw").data [2] 0 0 [] false).2 = .error () :=
  ⟨(c2_save_failure_propagates ⟨[], [], []⟩ (("u").data) (("p").data) [] []
      [2] 0 0 []).1.2 (by decide),
   (c2_save_failure_propagates
      ⟨[(("u").data, ⟨("u").data, sha256Hex (strBytes ("pw").data), 0, none⟩)], [], []⟩
      (("u").data) (("pw").data) (("pw").data) (("n").data) [2] 0 0 []).2.1.2
      ⟨("u").data, sha256Hex (strBytes ("pw").data), 0, none⟩ (by decide),
   (c2_save_failure_propagates
      ⟨[(("u").data, ⟨("u").data, sha256Hex (strBytes ("pw").data), 0, none⟩)], [], []⟩
      (("u").data) (("pw").data) (("pw").data) (("n").data) [2] 0 0 []).2.2.1.2
      ⟨("u").data, sha256Hex (strBytes ("pw").data), 0, none⟩ (by decide) (by decide),
   (c2_save_failure_propagates
      ⟨[(("u").data, ⟨("u").data, sha256Hex (strBytes ("pw").data), 0, none⟩)], [], []⟩
      (("u").data) (("pw").data) (("pw").data) (("n").data) [2] 0 0 []).2.2.2.2.2
      ⟨("u").data, sha256Hex (strBytes ("pw").data), 0, none⟩ (by decide) (by decide)⟩

/-! ## Lemmas: rate limiter internals -/

theorem aset_of_absent {α : Type} (m : List (Str × α)) (k : Str) (v : α)
    (h : alookup m k = none) : aset m k v = m ++ [(k, v)] := by
  induction m with
  | nil => rfl
  | cons p rest ih =>
    obtain ⟨k', v'⟩ := p
    by_cases hk : k' = k
    · simp [alookup, hk] at h
    · simp only [alookup, if_neg hk] at h
      simp [aset, hk, ih h]

theorem evict_of_le (m : List (Str × List Int))
    (h : m.length ≤ MAX_TRACKED_CLIENTS) : evict_if_needed m = m := by
  rw [evict_eq_drop]
  rw [Nat.sub_eq_zero_of_le h, List.drop_zero]

theorem alookup_evict_aset (m : List (Str × List Int)) (c : Str) (v : List Int)
    (hlen : m.length ≤ MAX_TRACKED_CLIENTS) :
    alookup (evict_if_needed (aset m c v)) c = some v := by
  cases h : alookup m c with
  | some w =>
    rw [evict_of_le _ (by rw [length_aset_present m c v w h]; exact hlen)]
    exact alookup_aset_self m c v
  | none =>
    rw [aset_of_absent m c v h, evict_eq_drop]
    apply alookup_drop_append m c v _ _ ((alookup_eq_none_iff _ _).mp h)
    have hM : 1 ≤ MAX_TRACKED_CLIENTS := by decide
    simp only [List.length_append, List.length_cons, List.length_nil]
    omega

theorem get_requests_fst (rl : RateLimiter) (c : Str) (now : Int) :
    (get_requests rl c now).1 =
      ((alookup rl.requests c).getD []).filter (fun t => decide (now - 86400 < t)) := by
  simp only [get_requests]
  by_cases h : ((alookup rl.requests c).getD []).isEmpty
  · rw [if_pos h, List.isEmpty_iff.mp h]
    rfl
  · rw [if_neg h]

theorem get_requests_snd_empty (rl : RateLimiter) (c : Str) (now : Int)
    (h : (alookup rl.requests c).getD [] = []) :
    (get_requests rl c now).2 = rl := by
  simp only [get_requests]
  rw [if_pos (List.isEmpty_iff.mpr h)]

theorem get_requests_snd_nonempty (rl : RateLimiter) (c : Str) (now : Int)
    (h : ¬ (alookup rl.requests c).getD [] = []) :
    (get_requests rl c now).2 =
      { rl with requests := moveToEnd (aset rl.requests c
          (((alookup rl.requests c).getD []).filter
            (fun t => decide (now - 86400 < t)))) c } := by
  simp only [get_requests]
  rw [if_neg (fun hc => h (List.isEmpty_iff.mp hc))]

theorem get_requests_present (rl : RateLimiter) (c : Str)
    (h : ¬ (alookup rl.requests c).getD [] = []) :
    alookup rl.requests c = some ((alookup rl.requests c).getD []) := by
  cases halk : alookup rl.requests c with
  | none => rw [halk] at h; exact absurd rfl h
  | some reqs => rfl

theorem get_requests_snd_length (rl : RateLimiter) (c : Str) (now : Int) :
    (get_requests rl c now).2.requests.length = rl.requests.length := by
  by_cases h : (alookup rl.requests c).getD [] = []
  · rw [get_requests_snd_empty rl c now h]
  · rw [get_requests_snd_nonempty rl c now h]
    exact (length_moveToEnd _ _).trans
      (length_aset_present rl.requests c _ _ (get_requests_present rl c h))

theorem get_requests_snd_nodup (rl : RateLimiter) (c : Str) (now : Int)
    (hnd : (rl.requests.map Prod.fst).Nodup) :
    ((get_requests rl c now).2.requests.map Prod.fst).Nodup := by
  by_cases h : (alookup rl.requests c).getD [] = []
  · rw [get_requests_snd_empty rl c now h]; exact hnd
  · rw [get_requests_snd_nonempty rl c now h]
    exact nodup_keys_moveToEnd _ _ (nodup_keys_aset _ _ _ hnd)

theorem get_requests_snd_lookup_ne (rl : RateLimiter) (c d : Str) (now : Int)
    (hne : d ≠ c) :
    alookup (get_requests rl c now).2.requests d = alookup rl.requests d := by
  by_cases h : (alookup rl.requests c).getD [] = []
  · rw [get_requests_snd_empty rl c now h]
  · rw [get_requests_snd_nonempty rl c now h]
    exact (alookup_moveToEnd_ne _ _ _ hne).trans (alookup_aset_ne _ _ _ _ hne)

theorem get_requests_snd_lookup_self (rl : RateLimiter) (c : Str) (now : Int)
    (hnd : (rl.requests.map Prod.fst).Nodup) :
    (alookup (get_requests rl c now).2.requests c).getD [] =
      (get_requests rl c now).1 := by
  by_cases h : (alookup rl.requests c).getD [] = []
  · rw [get_requests_snd_empty rl c now h, get_requests_fst, h]
    rfl
  · rw [get_requests_snd_nonempty rl c now h, get_requests_fst]
    have h1 := alookup_moveToEnd_self
      (aset rl.requests c (((alookup rl.requests c).getD []).filter
        (fun t => decide (now - 86400 < t)))) c (nodup_keys_aset _ _ _ hnd)
    rw [h1, alookup_aset_self]
    rfl

theorem filter_filter_of_imp {α : Type} (l : List α) (p q : α → Bool)
    (himp : ∀ x, q x = true → p x = true) :
    (l.filter p).filter q = l.filter q := by
  induction l with
  | nil => rfl
  | cons x rest ih =>
    rw [List.filter_cons]
    by_cases hp : p x = true
    · rw [if_pos hp, List.filter_cons, List.filter_cons, ih]
    · rw [if_neg hp, List.filter_cons]
      have hq : q x = false := by
        cases hqe : q x
        · rfl
        · exact absurd (himp x hqe) hp
      rw [if_neg (by rw [hq]; exact Bool.false_ne_true), ih]

/-! ## C3: `get_stats` reports counts but is not mutation-free -/

theorem get_stats_fst (rl : RateLimiter) (c : Str) (now : Int) :
    (get_stats rl c now).1 =
      ⟨((get_requests rl c now).1.filter (fun t => decide (now - 60 < t))).length,
       ((get_requests rl c now).1.filter (fun t => decide (now - 3600 < t))).length,
       (get_requests rl c now).1.length,
       rl.perMinute, rl.perHour, rl.perDay⟩ := rfl

theorem get_stats_snd (rl : RateLimiter) (c : Str) (now : Int) :
    (get_stats rl c now).2 = (get_requests rl c now).2 := rfl

/-- C3 (counterexample): `get_stats` does NOT leave the limiter state
unchanged — on a client whose ledger holds an entry older than 24h the
entry is pruned (and the client's LRU position refreshed) during the
read. -/
theorem c3_get_stats_mutates :
    (get_stats ⟨60, 1000, 10000, [(("a").data, [-90000])]⟩ ("a").data 0).2 ≠
      ⟨60, 1000, 10000, [(("a").data, [-90000])]⟩ := by
  decide

/-- C3 (amended): `get_stats` returns the current per-minute, per-hour
and per-day counts of the queried client (computed over its existing
ledger — nothing is appended), and the configured limits; but it is not
mutation-free: it prunes the queried client's entries older than 24h
and refreshes that client's LRU position.  Other clients' ledgers are
untouched, and the state is fully unchanged when the queried client has
no (non-empty) ledger. -/
theorem c3_get_stats_reports_without_append (rl : RateLimiter) (c : Str)
    (now : Int) (hnd : (rl.requests.map Prod.fst).Nodup) :
    (get_stats rl c now).1 =
      ⟨(((alookup rl.requests c).getD []).filter
          (fun t => decide (now - 60 < t))).length,
       (((alookup rl.requests c).getD []).filter
          (fun t => decide (now - 3600 < t))).length,
       (((alookup rl.requests c).getD []).filter
          (fun t => decide (now - 86400 < t))).length,
       rl.perMinute, rl.perHour, rl.perDay⟩ ∧
    (∀ d, d ≠ c →
      alookup (get_stats rl c now).2.requests d = alookup rl.requests d) ∧
    ((alookup rl.requests c).getD [] = [] → (get_stats rl c now).2 = rl) ∧
    (alookup (get_stats rl c now).2.requests c).getD [] =
      ((alookup rl.requests c).getD []).filter
        (fun t => decide (now - 86400 < t)) := by
  have h60 : (get_requests rl c now).1.filter (fun t => decide (now - 60 < t)) =
      ((alookup rl.requests c).getD []).filter (fun t => decide (now - 60 < t)) := by
    rw [get_requests_fst]
    exact filter_filter_of_imp _ _ _ (fun x hx => by
      simp only [decide_eq_true_eq] at hx ⊢
      omega)
  have h3600 : (get_requests rl c now).1.filter (fun t => decide (now - 3600 < t)) =
      ((alookup rl.requests c).getD []).filter (fun t => decide (now - 3600 < t)) := by
    rw [get_requests_fst]
    exact filter_filter_of_imp _ _ _ (fun x hx => by
      simp only [decide_eq_true_eq] at hx ⊢
      omega)
  refine ⟨?_, ?_, ?_, ?_⟩
  · rw [get_stats_fst, h60, h3600, get_requests_fst]
  · intro d hdc
    rw [get_stats_snd]
    exact get_requests_snd_lookup_ne rl c d now hdc
  · intro h
    rw [get_stats_snd]
    exact get_requests_snd_empty rl c now h
  · rw [get_stats_snd, get_requests_snd_lookup_self rl c now hnd, get_requests_fst]

/-- C3 witness: querying an untracked client leaves the state unchanged;
evaluated at a concrete limiter. -/
theorem c3_get_stats_reports_without_append_witness :
    (get_stats ⟨1, 2, 3, [(("a").data, [5])]⟩ ("b").data 10).2 =
      ⟨1, 2, 3, [(("a").data, [5])]⟩ :=
  (c3_get_stats_reports_without_append ⟨1, 2, 3, [(("a").data, [5])]⟩
    (("b").data) 10 (by decide)).2.2.1 (by decide)

/-! ## C4: admission checks tiers minute → hour → day -/

theorem minute_count_eq (rl : RateLimiter) (c : Str) (now : Int) :
    (get_requests rl c now).1.filter (fun t => decide (now - 60 < t)) =
      ((alookup rl.requests c).getD []).filter (fun t => decide (now - 60 < t)) := by
  rw [get_requests_fst]
  exact filter_filter_of_imp _ _ _ (fun x hx => by
    simp only [decide_eq_true_eq] at hx ⊢
    omega)

theorem hour_count_eq (rl : RateLimiter) (c : Str) (now : Int) :
    (get_requests rl c now).1.filter (fun t => decide (now - 3600 < t)) =
      ((alookup rl.requests c).getD []).filter (fun t => decide (now - 3600 < t)) := by
  rw [get_requests_fst]
  exact filter_filter_of_imp _ _ _ (fun x hx => by
    simp only [decide_eq_true_eq] at hx ⊢
    omega)

theorem is_allowed_eq_minute (rl : RateLimiter) (c : Str) (now : Int)
    (h : rl.perMinute ≤
      ((get_requests rl c now).1.filter (fun t => decide (now - 60 < t))).length) :
    is_allowed rl c now =
      (false, some (rateMsg rl.perMinute ("minute").data),
        (get_requests rl c now).2) := by
  simp only [is_allowed]
  rw [if_pos h]

theorem is_allowed_eq_hour (rl : RateLimiter) (c : Str) (now : Int)
    (h1 : ¬ rl.perMinute ≤
      ((get_requests rl c now).1.filter (fun t => decide (now - 60 < t))).length)
    (h2 : rl.perHour ≤
      ((get_requests rl c now).1.filter (fun t => decide (now - 3600 < t))).length) :
    is_allowed rl c now =
      (false, some (rateMsg rl.perHour ("hour").data),
        (get_requests rl c now).2) := by
  simp only [is_allowed]
  rw [if_neg h1, if_pos h2]

theorem is_allowed_eq_day (rl : RateLimiter) (c : Str) (now : Int)
    (h1 : ¬ rl.perMinute ≤
      ((get_requests rl c now).1.filter (fun t => decide (now - 60 < t))).length)
    (h2 : ¬ rl.perHour ≤
      ((get_requests rl c now).1.filter (fun t => decide (now - 3600 < t))).length)
    (h3 : rl.perDay ≤ (get_requests rl c now).1.length) :
    is_allowed rl c now =
      (false, some (rateMsg rl.perDay ("day").data),
        (get_requests rl c now).2) := by
  simp only [is_allowed]
  rw [if_neg h1, if_neg h2, if_pos h3]

theorem is_allowed_eq_grant (rl : RateLimiter) (c : Str) (now : Int)
    (h1 : ¬ rl.perMinute ≤
      ((get_requests rl c now).1.filter (fun t => decide (now - 60 < t))).length)
    (h2 : ¬ rl.perHour ≤
      ((get_requests rl c now).1.filter (fun t => decide (now - 3600 < t))).length)
    (h3 : ¬ rl.perDay ≤ (get_requests rl c now).1.length) :
    is_allowed rl c now =
      (true, none, { (get_requests rl c now).2 with
        requests := evict_if_needed (aset (get_requests rl c now).2.requests c
          ((get_requests rl c now).1 ++ [now])) }) := by
  simp only [is_allowed]
  rw [if_neg h1, if_neg h2, if_neg h3]

/-- C4: `is_allowed` prunes the caller's ledger to the 24h window, then
checks minute → hour → day with "count ≥ limit ⇒ reject", the first
exceeded tier fixing the reason; the current timestamp is appended to
the ledger exactly on admission (rejections leave the pruned ledger
as-is). -/
theorem c4_is_allowed_tiers (rl : RateLimiter) (c : Str) (now : Int)
    (hnd : (rl.requests.map Prod.fst).Nodup)
    (hlen : rl.requests.length ≤ MAX_TRACKED_CLIENTS) :
    (rl.perMinute ≤ (((alookup rl.requests c).getD []).filter
        (fun t => decide (now - 60 < t))).length →
      (is_allowed rl c now).1 = false ∧
      (is_allowed rl c now).2.1 = some (rateMsg rl.perMinute ("minute").data)) ∧
    ((((alookup rl.requests c).getD []).filter
        (fun t => decide (now - 60 < t))).length < rl.perMinute →
      rl.perHour ≤ (((alookup rl.requests c).getD []).filter
        (fun t => decide (now - 3600 < t))).length →
      (is_allowed rl c now).1 = false ∧
      (is_allowed rl c now).2.1 = some (rateMsg rl.perHour ("hour").data)) ∧
    ((((alookup rl.requests c).getD []).filter
        (fun t => decide (now - 60 < t))).length < rl.perMinute →
      (((alookup rl.requests c).getD []).filter
        (fun t => decide (now - 3600 < t))).length < rl.perHour →
      rl.perDay ≤ (((alookup rl.requests c).getD []).filter
        (fun t => decide (now - 86400 < t))).length →
      (is_allowed rl c now).1 = false ∧
      (is_allowed rl c now).2.1 = some (rateMsg rl.perDay ("day").data)) ∧
    ((((alookup rl.requests c).getD []).filter
        (fun t => decide (now - 60 < t))).length < rl.perMinute →
      (((alookup rl.requests c).getD []).filter
        (fun t => decide (now - 3600 < t))).length < rl.perHour →
      (((alookup rl.requests c).getD []).filter
        (fun t => decide (now - 86400 < t))).length < rl.perDay →
      (is_allowed rl c now).1 = true ∧
      (is_allowed rl c now).2.1 = none ∧
      alookup (is_allowed rl c now).2.2.requests c =
        some ((((alookup rl.requests c).getD []).filter
          (fun t => decide (now - 86400 < t))) ++ [now])) ∧
    ((is_allowed rl c now).1 = false →
      (alookup (is_allowed rl c now).2.2.requests c).getD [] =
        ((alookup rl.requests c).getD []).filter
          (fun t => decide (now - 86400 < t))) := by
  have hm := minute_count_eq rl c now
  have hh := hour_count_eq rl c now
  have hf := get_requests_fst rl c now
  refine ⟨?_, ?_, ?_, ?_, ?_⟩
  · intro h
    rw [is_allowed_eq_minute rl c now (by rw [hm]; exact h)]
    exact ⟨rfl, rfl⟩
  · intro h1 h2
    rw [is_allowed_eq_hour rl c now (by rw [hm]; omega) (by rw [hh]; exact h2)]
    exact ⟨rfl, rfl⟩
  · intro h1 h2 h3
    rw [is_allowed_eq_day rl c now (by rw [hm]; omega) (by rw [hh]; omega)
      (by rw [hf]; exact h3)]
    exact ⟨rfl, rfl⟩
  · intro h1 h2 h3
    rw [is_allowed_eq_grant rl c now (by rw [hm]; omega) (by rw [hh]; omega)
      (by rw [hf]; omega)]
    refine ⟨rfl, rfl, ?_⟩
    have hev := alookup_evict_aset (get_requests rl c now).2.requests c
      ((get_requests rl c now).1 ++ [now])
      (by rw [get_requests_snd_length]; exact hlen)
    rw [hf] at hev
    rw [hf]
    exact hev
  · intro hres
    by_cases h1 : rl.perMinute ≤ (((alookup rl.requests c).getD []).filter
        (fun t => decide (now - 60 < t))).length
    · rw [is_allowed_eq_minute rl c now (by rw [hm]; exact h1)]
      exact (get_requests_snd_lookup_self rl c now hnd).trans hf
    · by_cases h2 : rl.perHour ≤ (((alookup rl.requests c).getD []).filter
          (fun t => decide (now - 3600 < t))).length
      · rw [is_allowed_eq_hour rl c now (by rw [hm]; exact h1) (by rw [hh]; exact h2)]
        exact (get_requests_snd_lookup_self rl c now hnd).trans hf
      · by_cases h3 : rl.perDay ≤ (((alookup rl.requests c).getD []).filter
            (fun t => decide (now - 86400 < t))).length
        · rw [is_allowed_eq_day rl c now (by rw [hm]; exact h1) (by rw [hh]; exact h2)
            (by rw [hf]; exact h3)]
          exact (get_requests_snd_lookup_self rl c now hnd).trans hf
        · rw [is_allowed_eq_grant rl c now (by rw [hm]; exact h1) (by rw [hh]; exact h2)
            (by rw [hf]; exact h3)] at hres
          exact Bool.noConfusion hres

/-- C4 witness: a fresh client under all limits is admitted and its
ledger becomes `[now]`. -/
theorem c4_is_allowed_tiers_witness :
    (is_allowed ⟨1, 10, 100, []⟩ ("x").data 0).1 = true ∧
    (is_allowed ⟨1, 10, 100, []⟩ ("x").data 0).2.1 = none ∧
    alookup (is_allowed ⟨1, 10, 100, []⟩ ("x").data 0).2.2.requests (("x").data) =
      some (((alookup ([] : List (Str × List Int)) (("x").data)).getD []).filter
        (fun t => decide ((0 : Int) - 86400 < t)) ++ [0]) :=
  (c4_is_allowed_tiers ⟨1, 10, 100, []⟩ (("x").data) 0 (by decide)
    (by decide)).2.2.2.1 (by decide) (by decide) (by decide)

/-! ## C6: the tracked-client cap -/

theorem applyOp_length_le (rl : RateLimiter) (op : RLOp)
    (h : rl.requests.length ≤ MAX_TRACKED_CLIENTS) :
    (applyOp rl op).requests.length ≤ MAX_TRACKED_CLIENTS := by
  cases op with
  | record c now =>
    exact evict_length_le _
  | allow c now =>
    show (is_allowed rl c now).2.2.requests.length ≤ MAX_TRACKED_CLIENTS
    by_cases h1 : rl.perMinute ≤
        ((get_requests rl c now).1.filter (fun t => decide (now - 60 < t))).length
    · rw [is_allowed_eq_minute rl c now h1]
      show (get_requests rl c now).2.requests.length ≤ MAX_TRACKED_CLIENTS
      rw [get_requests_snd_length]
      exact h
    · by_cases h2 : rl.perHour ≤
          ((get_requests rl c now).1.filter (fun t => decide (now - 3600 < t))).length
      · rw [is_allowed_eq_hour rl c now h1 h2]
        show (get_requests rl c now).2.requests.length ≤ MAX_TRACKED_CLIENTS
        rw [get_requests_snd_length]
        exact h
      · by_cases h3 : rl.perDay ≤ (get_requests rl c now).1.length
        · rw [is_allowed_eq_day rl c now h1 h2 h3]
          show (get_requests rl c now).2.requests.length ≤ MAX_TRACKED_CLIENTS
          rw [get_requests_snd_length]
          exact h
        · rw [is_allowed_eq_grant rl c now h1 h2 h3]
          exact evict_length_le _

theorem runOps_length_le (rl : RateLimiter) (ops : List RLOp)
    (h : rl.requests.length ≤ MAX_TRACKED_CLIENTS) :
    (runOps rl ops).requests.length ≤ MAX_TRACKED_CLIENTS := by
  induction ops generalizing rl with
  | nil => exact h
  | cons op rest ih => exact ih _ (applyOp_length_le rl op h)

/-- C6: after any sequence of `is_allowed` / `record_request` calls on a
fresh limiter, at most `MAX_TRACKED_CLIENTS` (10,000) distinct caller
identities are tracked; eviction drops whole ledgers from the front
(least-recently-touched end) of the ordered dict; and an untracked
(e.g. previously evicted) identity is treated as having an empty
history. -/
theorem c6_tracked_clients_capped (ops : List RLOp) (pm ph pd : Nat)
    (m : List (Str × List Int)) (rl : RateLimiter) (c : Str) (now : Int) :
    (runOps (mkLimiter pm ph pd) ops).requests.length ≤ MAX_TRACKED_CLIENTS ∧
    evict_if_needed m = m.drop (m.length - MAX_TRACKED_CLIENTS) ∧
    (alookup rl.requests c = none → (get_requests rl c now).1 = []) :=
  ⟨runOps_length_le _ ops (Nat.zero_le _), evict_eq_drop m,
   fun h => by rw [get_requests_fst, h]; rfl⟩

/-- C6 witness: the empty-history clause evaluated at a concrete
limiter and untracked client. -/
theorem c6_tracked_clients_capped_witness :
    alookup ((⟨1, 1, 1, []⟩ : RateLimiter)).requests (("z").data) = none ∧
    (get_requests ⟨1, 1, 1, []⟩ ("z").data 0).1 = [] :=
  ⟨by decide,
   (c6_tracked_clients_capped [] 1 1 1 [] ⟨1, 1, 1, []⟩ (("z").data) 0).2.2 (by decide)⟩

/-! ## Lemmas: refresher cycle unfolding -/

theorem run_cycle_of_load_failed (buffer : Nat) (hasCb : Bool) (eff : CycleEffects)
    (h : eff.loaded = none) : run_cycle buffer hasCb eff = ⟨0, none, false⟩ := by
  unfold run_cycle
  rw [h]

theorem run_cycle_no_expiry (buffer : Nat) (hasCb : Bool) (eff : CycleEffects)
    (cfg : IFlowConfig) (h : eff.loaded = some cfg)
    (hexp : cfg.oauthExpiresAt = none) :
    run_cycle buffer hasCb eff = ⟨0, none, false⟩ := by
  unfold run_cycle
  simp only [h, hexp]

theorem run_cycle_guard_false (buffer : Nat) (hasCb : Bool) (eff : CycleEffects)
    (cfg : IFlowConfig) (e : Int) (h : eff.loaded = some cfg)
    (hexp : cfg.oauthExpiresAt = some e)
    (hg : (decide (cfg.authType = some (("oauth-iflow").data)) &&
      truthyS cfg.oauthRefreshToken) = false) :
    run_cycle buffer hasCb eff = ⟨0, none, false⟩ := by
  unfold run_cycle
  simp only [h, hexp, hg]
  simp

theorem run_cycle_not_expired (buffer : Nat) (hasCb : Bool) (eff : CycleEffects)
    (cfg : IFlowConfig) (e : Int) (h : eff.loaded = some cfg)
    (hexp : cfg.oauthExpiresAt = some e)
    (hg : (decide (cfg.authType = some (("oauth-iflow").data)) &&
      truthyS cfg.oauthRefreshToken) = true)
    (hdue : is_token_expired e buffer eff.now = false) :
    run_cycle buffer hasCb eff = ⟨0, none, false⟩ := by
  unfold run_cycle
  simp only [h, hexp, hg, hdue]
  simp

theorem run_cycle_due (buffer : Nat) (hasCb : Bool) (eff : CycleEffects)
    (cfg : IFlowConfig) (e : Int) (h : eff.loaded = some cfg)
    (hexp : cfg.oauthExpiresAt = some e)
    (hg : (decide (cfg.authType = some (("oauth-iflow").data)) &&
      truthyS cfg.oauthRefreshToken) = true)
    (hdue : is_token_expired e buffer eff.now = true) :
    run_cycle buffer hasCb eff =
      refresh_token_step cfg hasCb eff.exchange eff.saveOk := by
  unfold run_cycle
  simp only [h, hexp, hg, hdue]
  simp

theorem refresh_token_step_failed (cfg : IFlowConfig) (hasCb : Bool)
    (saveOk : Bool) (htr : truthyS cfg.oauthRefreshToken = true) :
    refresh_token_step cfg hasCb none saveOk = ⟨1, none, false⟩ := by
  unfold refresh_token_step
  rw [htr]
  simp

theorem refresh_token_step_some (cfg : IFlowConfig) (hasCb : Bool)
    (td : TokenResp) (saveOk : Bool)
    (htr : truthyS cfg.oauthRefreshToken = true) :
    refresh_token_step cfg hasCb (some td) saveOk =
      if saveOk then
        ⟨1, some { cfg with
            oauthAccessToken := some (td.accessToken.getD []),
            oauthRefreshToken := if truthyS td.refreshToken then td.refreshToken
              else cfg.oauthRefreshToken,
            oauthExpiresAt := if td.expiresAt.isSome then td.expiresAt
              else cfg.oauthExpiresAt }, hasCb⟩
      else ⟨1, none, false⟩ := by
  unfold refresh_token_step
  rw [htr]
  cases hexp2 : td.expiresAt <;> by_cases ht2 : truthyS td.refreshToken <;>
    cases saveOk <;> simp [ht2, hexp2]

/-! ## C7 and C8: refresher cycle behaviour -/

theorem run_cycle_cases (buffer : Nat) (hasCb : Bool) (eff : CycleEffects) :
    run_cycle buffer hasCb eff = ⟨0, none, false⟩ ∨
    ∃ cfg, eff.loaded = some cfg ∧ truthyS cfg.oauthRefreshToken = true ∧
      run_cycle buffer hasCb eff =
        refresh_token_step cfg hasCb eff.exchange eff.saveOk := by
  cases hl : eff.loaded with
  | none => exact Or.inl (run_cycle_of_load_failed buffer hasCb eff hl)
  | some cfg =>
    cases hexp : cfg.oauthExpiresAt with
    | none => exact Or.inl (run_cycle_no_expiry buffer hasCb eff cfg hl hexp)
    | some e =>
      by_cases hg : (decide (cfg.authType = some (("oauth-iflow").data)) &&
          truthyS cfg.oauthRefreshToken) = true
      · by_cases hex : is_token_expired e buffer eff.now = true
        · exact Or.inr ⟨cfg, rfl, (Bool.and_eq_true_iff.mp hg).2,
            run_cycle_due buffer hasCb eff cfg e hl hexp hg hex⟩
        · exact Or.inl (run_cycle_not_expired buffer hasCb eff cfg e hl hexp hg
            (Bool.eq_false_iff.mpr hex))
      · exact Or.inl (run_cycle_guard_false buffer hasCb eff cfg e hl hexp
          (Bool.eq_false_iff.mpr hg))

/-- C7 (spec-modelled expiry predicate): one refresher cycle performs a
refresh exchange exactly when the loaded credential is in delegated
OAuth mode with a (truthy) refresh token and an expiry within the
buffer of now; otherwise the cycle is a no-op (no exchange, no write,
no callback); and a successful exchange with a successful save persists
the credential updated with the exchange result (access token replaced,
refresh token / expiry rotated only when present). -/
theorem c7_refresh_exactly_when_due (buffer : Nat) (hasCb : Bool)
    (eff : CycleEffects) :
    ((run_cycle buffer hasCb eff).exchangeCalls = 1 ↔ refreshDue buffer eff) ∧
    ((run_cycle buffer hasCb eff).exchangeCalls = 0 ∨
      (run_cycle buffer hasCb eff).exchangeCalls = 1) ∧
    (¬ refreshDue buffer eff → run_cycle buffer hasCb eff = ⟨0, none, false⟩) ∧
    (∀ cfg td, eff.loaded = some cfg → refreshDue buffer eff →
      eff.exchange = some td → eff.saveOk = true →
      (run_cycle buffer hasCb eff).saved = some
        { cfg with
            oauthAccessToken := some (td.accessToken.getD []),
            oauthRefreshToken := if truthyS td.refreshToken then td.refreshToken
              else cfg.oauthRefreshToken,
            oauthExpiresAt := if td.expiresAt.isSome then td.expiresAt
              else cfg.oauthExpiresAt }) := by
  by_cases hdue : refreshDue buffer eff
  · obtain ⟨cfg, hl, hauth, htr, e, hexp, hle⟩ := hdue
    have hg : (decide (cfg.authType = some (("oauth-iflow").data)) &&
        truthyS cfg.oauthRefreshToken) = true := by
      rw [htr]
      simp [hauth]
    have hex : is_token_expired e buffer eff.now = true := by
      unfold is_token_expired
      exact decide_eq_true hle
    have hrc := run_cycle_due buffer hasCb eff cfg e hl hexp hg hex
    have hcalls : (run_cycle buffer hasCb eff).exchangeCalls = 1 := by
      rw [hrc]
      cases hxc : eff.exchange with
      | none => rw [refresh_token_step_failed cfg hasCb eff.saveOk htr]
      | some td =>
        rw [refresh_token_step_some cfg hasCb td eff.saveOk htr]
        by_cases hs : eff.saveOk = true
        · rw [if_pos hs]
        · rw [if_neg hs]
    refine ⟨⟨fun _ => ⟨cfg, hl, hauth, htr, e, hexp, hle⟩, fun _ => hcalls⟩,
      Or.inr hcalls,
      fun hnd => absurd ⟨cfg, hl, hauth, htr, e, hexp, hle⟩ hnd,
      fun cfg' td hl' _ hxc hs => ?_⟩
    rw [hl] at hl'
    cases hl'
    rw [hrc, hxc, refresh_token_step_some cfg hasCb td eff.saveOk htr,
      if_pos hs]
  · have hrc : run_cycle buffer hasCb eff = ⟨0, none, false⟩ := by
      cases hl : eff.loaded with
      | none => exact run_cycle_of_load_failed buffer hasCb eff hl
      | some cfg =>
        cases hexp : cfg.oauthExpiresAt with
        | none => exact run_cycle_no_expiry buffer hasCb eff cfg hl hexp
        | some e =>
          by_cases hg : (decide (cfg.authType = some (("oauth-iflow").data)) &&
              truthyS cfg.oauthRefreshToken) = true
          · by_cases hex : is_token_expired e buffer eff.now = true
            · have hpq := Bool.and_eq_true_iff.mp hg
              have hle : e ≤ eff.now + (buffer : Int) := by
                unfold is_token_expired at hex
                exact of_decide_eq_true hex
              exact absurd ⟨cfg, hl, of_decide_eq_true hpq.1, hpq.2, e, hexp, hle⟩ hdue
            · exact run_cycle_not_expired buffer hasCb eff cfg e hl hexp hg
                (Bool.eq_false_iff.mpr hex)
          · exact run_cycle_guard_false buffer hasCb eff cfg e hl hexp
              (Bool.eq_false_iff.mpr hg)
    refine ⟨⟨fun hc => ?_, fun hd => absurd hd hdue⟩, Or.inl (by rw [hrc]),
      fun _ => hrc, fun cfg td hl hd => absurd hd hdue⟩
    rw [hrc] at hc
    exact absurd hc (by decide)

/-- C7 witness: a credential inside the refresh buffer with a
successful exchange and save persists the rotated credential. -/
theorem c7_refresh_exactly_when_due_witness :
    (run_cycle 300 true
      ⟨some ⟨some ("oauth-iflow").data, some ("old").data, some ("rt").data, some 100⟩,
        some ⟨some ("acc2").data, some ("rt2").data, some 900⟩, true, 0⟩).saved =
      some { (⟨some ("oauth-iflow").data, some ("old").data, some ("rt").data,
          some 100⟩ : IFlowConfig) with
        oauthAccessToken :=
          some ((some (("acc2").data) : Option Str).getD []),
        oauthRefreshToken :=
          if truthyS (some ("rt2").data) then some ("rt2").data
          else some ("rt").data,
        oauthExpiresAt :=
          if (some (900 : Int)).isSome then some (900 : Int) else some 100 } :=
  (c7_refresh_exactly_when_due 300 true
    ⟨some ⟨some ("oauth-iflow").data, some ("old").data, some ("rt").data, some 100⟩,
      some ⟨some ("acc2").data, some ("rt2").data, some 900⟩, true, 0⟩).2.2.2
    ⟨some ("oauth-iflow").data, some ("old").data, some ("rt").data, some 100⟩
    ⟨some ("acc2").data, some ("rt2").data, some 900⟩
    rfl
    ⟨⟨some ("oauth-iflow").data, some ("old").data, some ("rt").data, some 100⟩,
      rfl, rfl, by decide, 100, rfl, by decide⟩
    rfl rfl

/-- C8: when the refresh exchange raises, nothing is written to the
credential store and no observer callback runs — the failure is
swallowed inside the cycle and the worker goes on to process the next
cycle. -/
theorem c8_failed_exchange_swallowed (buffer : Nat) (hasCb : Bool)
    (eff : CycleEffects) (rest : List CycleEffects)
    (hfail : eff.exchange = none) :
    (run_cycle buffer hasCb eff).saved = none ∧
    (run_cycle buffer hasCb eff).callbackInvoked = false ∧
    run_cycles buffer hasCb (eff :: rest) =
      run_cycle buffer hasCb eff :: run_cycles buffer hasCb rest := by
  refine ⟨?_, ?_, rfl⟩ <;>
  · rcases run_cycle_cases buffer hasCb eff with hrc | ⟨cfg, _, htr, hrc⟩
    · rw [hrc]
    · rw [hrc, hfail, refresh_token_step_failed cfg hasCb eff.saveOk htr]

/-- C8 witness: a due credential whose exchange fails — no save, no
callback. -/
theorem c8_failed_exchange_swallowed_witness :
    (run_cycle 300 true
      ⟨some ⟨some ("oauth-iflow").data, some ("old").data, some ("rt").data, some 100⟩,
        none, true, 0⟩).saved = none ∧
    (run_cycle 300 true
      ⟨some ⟨some ("oauth-iflow").data, some ("old").data, some ("rt").data, some 100⟩,
        none, true, 0⟩).callbackInvoked = false :=
  ⟨(c8_failed_exchange_swallowed 300 true
      ⟨some ⟨some ("oauth-iflow").data, some ("old").data, some ("rt").data, some 100⟩,
        none, true, 0⟩ [] rfl).1,
   (c8_failed_exchange_swallowed 300 true
      ⟨some ⟨some ("oauth-iflow").data, some ("old").data, some ("rt").data, some 100⟩,
        none, true, 0⟩ [] rfl).2.1⟩
